import Mathlib

/-!
# Contact service (`index.js`): CRUD handlers over a relational table and an upload directory

The four Express handlers of `index.js` are embedded as pure functions on an
explicit state: the `contacts` table together with its id sequence (the
relational store reached through `pool.query`) and the set of files under
`uploads/` (the blob store reached through `fs`).  Every call that can throw in
the source (`pool.query`, `fs.unlinkSync`) takes a flag saying whether it throws
in the run under consideration, so that the `try`/`catch` structure of each
handler is part of the model.  Body fields are JavaScript values as the body
parsers deliver them (text, numbers, booleans, null, arrays, objects): the
required-field test is JavaScript truthiness, and `email.includes` throws on a
value that has no such method.
-/

namespace ContactService

/-! ## Data model -/

/-- An element of an array value.  `compound` is an element that is itself an
array or an object, kept as its JSON text: no handler looks inside it. -/
inductive JsAtom where
  | null
  | bool (b : Bool)
  | num (n : Int)
  | str (s : String)
  | compound (json : String)
deriving DecidableEq, Repr

/-- A value that the body parsers of the source can put into `req.body`:
`express.json` / `bodyParser.json` deliver any JSON value, the form parsers and
multer deliver text, and arrays or objects for repeated or bracketed names.
`null` stands for `undefined` (field absent) and for JSON `null`: both are falsy
and both are stored as SQL NULL when passed as a query parameter.  `num` is a
JSON number; the handlers only ever test a number for being zero.  `obj` is an
object, kept as its JSON text: no handler reads a property of it. -/
inductive JsVal where
  | null
  | bool (b : Bool)
  | num (n : Int)
  | str (s : String)
  | arr (elems : List JsAtom)
  | obj (json : String)
deriving DecidableEq, Repr

/-- The eight business fields destructured from `req.body`. -/
structure Fields where
  name : JsVal
  email : JsVal
  emp_id : JsVal
  salary : JsVal
  age : JsVal
  role : JsVal
  address : JsVal
  phone_number : JsVal
deriving DecidableEq, Repr

/-- One row of the `contacts` table, as returned by `RETURNING *` / `SELECT *`. -/
structure Contact where
  id : Nat
  fields : Fields
  file_path : Option String
deriving DecidableEq, Repr

/-- The file part of a multipart request as seen by the multer storage engine:
`now` is the value of `Date.now()` when the file name is generated. -/
structure Upload where
  now : Nat
  originalname : String
deriving DecidableEq, Repr

/-- The `filename` callback of `multer.diskStorage`:
`Date.now() + '-' + file.originalname`. -/
def Upload.filename (u : Upload) : String :=
  toString u.now ++ "-" ++ u.originalname

/-- The `file.path` that multer reports: the `destination` callback's
`'uploads/'` joined with the generated file name. -/
def Upload.path (u : Upload) : String :=
  "uploads/" ++ u.filename

/-- Modelled from the spec: the relational store behind `pool` (module `./db`)
and its schema, `contacts(id PK auto-increment, name, email, emp_id, salary,
age, role, address, phone_number, file_path nullable)`.  `rows` is the table in
storage order, `nextId` the next value of the id sequence.  `blobs` lists the
paths of the files that currently exist under `uploads/`. -/
structure Store where
  rows : List Contact
  nextId : Nat
  blobs : List String
deriving DecidableEq, Repr

/-- Which of the throwing calls of a handler throw in this run.
`query1` / `query2`: the first / second `pool.query` of the handler;
`unlink`: the `fs.unlinkSync` inside the `try` block;
`cleanup`: the `fs.unlinkSync` inside the `catch` block. -/
structure Faults where
  query1 : Bool
  query2 : Bool
  unlink : Bool
  cleanup : Bool
deriving DecidableEq, Repr

/-- The run in which no call throws. -/
def Faults.none : Faults :=
  { query1 := false, query2 := false, unlink := false, cleanup := false }

/-- JSON bodies sent by the handlers. -/
inductive Body where
  | error (msg : String)
  | contact (message : String) (contact : Contact)
  | rows (contacts : List Contact)
deriving DecidableEq, Repr

/-- What the client observes: a JSON response with a status code, or nothing
because an exception left the `async` handler (the `catch` block itself threw). -/
inductive Reply where
  | json (status : Nat) (body : Body)
  | unhandled
deriving DecidableEq, Repr

/-! ## JavaScript and filesystem primitives -/

/-- JavaScript truthiness, the meaning of `!x` and of `x &&`: `undefined`,
`null`, `false`, `0` and `''` are falsy, every other value is truthy. -/
def truthy : JsVal → Bool
  | JsVal.null => false
  | JsVal.bool b => b
  | JsVal.num n => decide (n ≠ 0)
  | JsVal.str v => decide (v ≠ "")
  | JsVal.arr _ => true
  | JsVal.obj _ => true

/-- The call `x.includes('@')`: `String.prototype.includes` on text,
`Array.prototype.includes` on an array (an element equal to the text `'@'`);
on every other value `x.includes` is not a function and the call throws a
`TypeError` (`none`). -/
def includes : JsVal → Option Bool
  | JsVal.str v => some (decide ('@' ∈ v.data))
  | JsVal.arr elems => some (decide (JsAtom.str "@" ∈ elems))
  | _ => Option.none

/-- The call `fs.existsSync(p)`: the empty path names no file. -/
def existsSync (s : Store) (p : String) : Bool :=
  decide (p ≠ "" ∧ p ∈ s.blobs)

/-- The call `fs.unlinkSync(p)`: `none` when the call throws (an injected
failure, or `ENOENT` because no such file exists), otherwise the store without
the file. -/
def unlinkSync (fails : Bool) (s : Store) (p : String) : Option Store :=
  if fails = true ∨ existsSync s p = false then Option.none
  else some { s with blobs := s.blobs.filter (fun q => decide (q ≠ p)) }

/-- The middleware `upload.single('file')`, which runs before the handler and
writes the uploaded file (if any) to `file.path`, replacing a file of that name. -/
def uploadSingle (s : Store) (file : Option Upload) : Store :=
  match file with
  | Option.none => s
  | some u => if u.path ∈ s.blobs then s else { s with blobs := u.path :: s.blobs }

/-! ## POST /api/contacts -/

/-- The statement `if (file) fs.unlinkSync(file.path);` of the three rejection
branches; `none` when `unlinkSync` throws. -/
def discardUpload (f : Faults) (s : Store) (file : Option Upload) : Option Store :=
  match file with
  | Option.none => some s
  | some u => unlinkSync f.unlink s u.path

/-- A rejection branch: discard the upload, then `return res.status(..).json(..)`. -/
def reject (f : Faults) (s : Store) (file : Option Upload) (status : Nat) (msg : String) :
    Store × Option Reply :=
  match discardUpload f s file with
  | some s1 => (s1, some (Reply.json status (Body.error msg)))
  | Option.none => (s, Option.none)

/-- The condition `!name || !email || !emp_id || !salary || !age || !role ||
!address || !phone_number`. -/
def anyFalsy (b : Fields) : Bool :=
  !truthy b.name || !truthy b.email || !truthy b.emp_id || !truthy b.salary ||
    !truthy b.age || !truthy b.role || !truthy b.address || !truthy b.phone_number

/-- The query `SELECT * FROM contacts WHERE email = $1`: a NULL matches nothing. -/
def selectByEmail (s : Store) (email : JsVal) : List Contact :=
  s.rows.filter (fun r => decide (email ≠ JsVal.null ∧ r.fields.email = email))

/-- Modelled from the spec: whether the INSERT statement throws, which `./db`
and the schema decide.  It throws in a run where the query fails, and when the
next id of the sequence is already a key of the table (`id` is the primary
key). -/
def insertThrows (f : Faults) (s : Store) : Bool :=
  f.query2 || decide (∃ r ∈ s.rows, r.id = s.nextId)

/-- The query `INSERT INTO contacts (...) VALUES (...) RETURNING *`, when it
does not throw: the new row takes the next id of the sequence. -/
def insertContact (s : Store) (b : Fields) (filePath : Option String) : Store × Contact :=
  let c : Contact := { id := s.nextId, fields := b, file_path := filePath }
  ({ s with rows := s.rows ++ [c], nextId := s.nextId + 1 }, c)

/-- The `try` block of the POST handler; the second component is `none` when
an exception is thrown. -/
def postTry (f : Faults) (s : Store) (b : Fields) (file : Option Upload) :
    Store × Option Reply :=
  if anyFalsy b then reject f s file 400 "All fields are required."
  else
    match includes b.email with
    | Option.none => (s, Option.none)
    | some false => reject f s file 400 "Invalid email address."
    | some true =>
      if f.query1 then (s, Option.none)
      else if (selectByEmail s b.email).length > 0 then
        reject f s file 409 "Contact with this email already exists."
      else if insertThrows f s then (s, Option.none)
      else
        let r := insertContact s b (file.map Upload.path)
        (r.1, some (Reply.json 201 (Body.contact "Contact added successfully." r.2)))

/-- The `catch` blocks of the POST and PUT handlers:
`if (file && fs.existsSync(file.path)) fs.unlinkSync(file.path);` followed by
the 500 response.  When this `unlinkSync` throws, no response is sent. -/
def catchCleanup (f : Faults) (s : Store) (file : Option Upload) (msg : String) :
    Store × Reply :=
  match file with
  | Option.none => (s, Reply.json 500 (Body.error msg))
  | some u =>
    if existsSync s u.path then
      match unlinkSync f.cleanup s u.path with
      | some s1 => (s1, Reply.json 500 (Body.error msg))
      | Option.none => (s, Reply.unhandled)
    else (s, Reply.json 500 (Body.error msg))

/-- The POST handler: `try` block, then `catch` block if it threw. -/
def postHandler (f : Faults) (s : Store) (b : Fields) (file : Option Upload) :
    Store × Reply :=
  match postTry f s b file with
  | (s1, some r) => (s1, r)
  | (s1, Option.none) => catchCleanup f s1 file "Internal server error"

/-- Create: `app.post('/api/contacts', upload.single('file'), handler)`. -/
def postContacts (f : Faults) (s : Store) (b : Fields) (file : Option Upload) :
    Store × Reply :=
  postHandler f (uploadSingle s file) b file

/-! ## GET /api/contacts -/

/-- The query `SELECT * FROM contacts ORDER BY id`. -/
def selectOrderById (s : Store) : List Contact :=
  s.rows.insertionSort (fun a b => a.id ≤ b.id)

/-- The `try` block of the GET handler. -/
def getTry (f : Faults) (s : Store) : Store × Option Reply :=
  if f.query1 then (s, Option.none)
  else (s, some (Reply.json 200 (Body.rows (selectOrderById s))))

/-- List: `app.get('/api/contacts', handler)`; its `catch` block only logs
and responds. -/
def getContacts (f : Faults) (s : Store) : Store × Reply :=
  match getTry f s with
  | (s1, some r) => (s1, r)
  | (s1, Option.none) => (s1, Reply.json 500 (Body.error "Database error"))

/-! ## PUT /api/contacts/:id -/

/-- The query `SELECT file_path FROM contacts WHERE id = $1` followed by
`rows[0]?.file_path`; `undefined` and `null` are both `none`. -/
def selectFilePath (s : Store) (id : Nat) : Option String :=
  match s.rows.find? (fun r => decide (r.id = id)) with
  | some r => r.file_path
  | Option.none => Option.none

/-- The query `UPDATE contacts SET ... WHERE id = $10 RETURNING *`: the new
table and the returned rows. -/
def updateContact (s : Store) (id : Nat) (b : Fields) (filePath : Option String) :
    Store × List Contact :=
  let upd : Contact → Contact := fun r =>
    if r.id = id then { id := r.id, fields := b, file_path := filePath } else r
  ({ s with rows := s.rows.map upd }, (s.rows.filter (fun r => decide (r.id = id))).map upd)

/-- The block `if (file) { filePath = file.path; if (oldFilePath &&
fs.existsSync(oldFilePath)) fs.unlinkSync(oldFilePath); }`: the store and the
new `filePath`, or `none` when `unlinkSync` throws. -/
def replaceFile (f : Faults) (s : Store) (oldFilePath : Option String)
    (file : Option Upload) : Option (Store × Option String) :=
  match file with
  | Option.none => some (s, oldFilePath)
  | some u =>
    match oldFilePath with
    | some old =>
      if truthy (JsVal.str old) && existsSync s old then
        match unlinkSync f.unlink s old with
        | some s1 => some (s1, some u.path)
        | Option.none => Option.none
      else some (s, some u.path)
    | Option.none => some (s, some u.path)

/-- The `try` block of the PUT handler. -/
def putTry (f : Faults) (s : Store) (id : Nat) (b : Fields) (file : Option Upload) :
    Store × Option Reply :=
  if f.query1 then (s, Option.none)
  else
    match replaceFile f s (selectFilePath s id) file with
    | Option.none => (s, Option.none)
    | some (s1, filePath) =>
      if f.query2 then (s1, Option.none)
      else
        match updateContact s1 id b filePath with
        | (s2, []) => (s2, some (Reply.json 404 (Body.error "Contact not found")))
        | (s2, c :: _) =>
          (s2, some (Reply.json 200 (Body.contact "Contact updated successfully." c)))

/-- The PUT handler: `try` block, then `catch` block if it threw. -/
def putHandler (f : Faults) (s : Store) (id : Nat) (b : Fields) (file : Option Upload) :
    Store × Reply :=
  match putTry f s id b file with
  | (s1, some r) => (s1, r)
  | (s1, Option.none) => catchCleanup f s1 file "Database error"

/-- Update: `app.put('/api/contacts/:id', upload.single('file'), handler)`. -/
def putContact (f : Faults) (s : Store) (id : Nat) (b : Fields) (file : Option Upload) :
    Store × Reply :=
  putHandler f (uploadSingle s file) id b file

/-! ## DELETE /api/contacts/:id -/

/-- The query `DELETE FROM contacts WHERE id = $1 RETURNING *`: the new table
and the deleted rows. -/
def deleteRows (s : Store) (id : Nat) : Store × List Contact :=
  ({ s with rows := s.rows.filter (fun r => decide (r.id ≠ id)) },
    s.rows.filter (fun r => decide (r.id = id)))

/-- The statement `if (filePath && fs.existsSync(filePath)) fs.unlinkSync(filePath);`
of the DELETE handler; `none` when `unlinkSync` throws. -/
def removeBlob (f : Faults) (s : Store) (filePath : Option String) : Option Store :=
  match filePath with
  | some p =>
    if truthy (JsVal.str p) && existsSync s p then unlinkSync f.unlink s p else some s
  | Option.none => some s

/-- The `try` block of the DELETE handler. -/
def deleteTry (f : Faults) (s : Store) (id : Nat) : Store × Option Reply :=
  if f.query1 then (s, Option.none)
  else
    let filePath := selectFilePath s id
    if f.query2 then (s, Option.none)
    else
      match deleteRows s id with
      | (s1, []) => (s1, some (Reply.json 404 (Body.error "Contact not found")))
      | (s1, c :: _) =>
        match removeBlob f s1 filePath with
        | some s2 =>
          (s2, some (Reply.json 200 (Body.contact "Contact deleted successfully." c)))
        | Option.none => (s1, Option.none)

/-- Delete: `app.delete('/api/contacts/:id', handler)`; its `catch` block
only logs and responds. -/
def deleteContact (f : Faults) (s : Store) (id : Nat) : Store × Reply :=
  match deleteTry f s id with
  | (s1, some r) => (s1, r)
  | (s1, Option.none) => (s1, Reply.json 500 (Body.error "Database error"))

/-! ## The service as a transition system -/

/-- A request to the service; `id` is the key value that `req.params.id`
denotes. -/
inductive Request where
  | create (b : Fields) (file : Option Upload)
  | list
  | update (id : Nat) (b : Fields) (file : Option Upload)
  | delete (id : Nat)
deriving DecidableEq, Repr

/-- The file part of a request, if it has one. -/
def Request.file : Request → Option Upload
  | Request.create _ file => file
  | Request.update _ _ file => file
  | _ => Option.none

/-- The `try` block of the handler of a request, run after the upload
middleware; the second component is `none` when the block throws. -/
def tryBlock (f : Faults) (s : Store) : Request → Store × Option Reply
  | Request.create b file => postTry f (uploadSingle s file) b file
  | Request.list => getTry f s
  | Request.update id b file => putTry f (uploadSingle s file) id b file
  | Request.delete id => deleteTry f s id

/-- The message of the 500 response sent by the `catch` block of the handler. -/
def catchMessage : Request → String
  | Request.create _ _ => "Internal server error"
  | _ => "Database error"

/-- One request handled to completion. -/
def handle (f : Faults) (s : Store) : Request → Store × Reply
  | Request.create b file => postContacts f s b file
  | Request.list => getContacts f s
  | Request.update id b file => putContact f s id b file
  | Request.delete id => deleteContact f s id

/-! ## Vocabulary of the specification -/

/-- A field that is "missing or empty": absent or null, or the empty text. -/
def Blank (x : JsVal) : Prop :=
  x = JsVal.null ∨ x = JsVal.str ""

/-- A field that fails the required-field test of the handler: missing or
empty, or one of the values `0` and `false`. -/
def Falsy (x : JsVal) : Prop :=
  Blank x ∨ x = JsVal.num 0 ∨ x = JsVal.bool false

/-- At least one of the eight required fields is missing or empty. -/
def AnyBlank (b : Fields) : Prop :=
  Blank b.name ∨ Blank b.email ∨ Blank b.emp_id ∨ Blank b.salary ∨
    Blank b.age ∨ Blank b.role ∨ Blank b.address ∨ Blank b.phone_number

/-- At least one of the eight required fields fails the required-field test. -/
def SomeFalsy (b : Fields) : Prop :=
  Falsy b.name ∨ Falsy b.email ∨ Falsy b.emp_id ∨ Falsy b.salary ∨
    Falsy b.age ∨ Falsy b.role ∨ Falsy b.address ∨ Falsy b.phone_number

/-- The email field holds text that contains the character `@`. -/
def EmailHasAt (b : Fields) : Prop :=
  ∃ e, b.email = JsVal.str e ∧ '@' ∈ e.data

/-- The email field holds text that does not contain the character `@`. -/
def EmailLacksAt (b : Fields) : Prop :=
  ∃ e, b.email = JsVal.str e ∧ '@' ∉ e.data

/-- Some contact of the table already uses this email. -/
def EmailTaken (s : Store) (email : JsVal) : Prop :=
  ∃ r ∈ s.rows, r.fields.email = email

/-- The contact that an id designates: the first row of the table with that id. -/
def rowWithId (s : Store) (id : Nat) : Option Contact :=
  s.rows.find? (fun r => decide (r.id = id))

/-- The id sequence is ahead of every id in the table. -/
def SeqAhead (s : Store) : Prop :=
  ∀ r ∈ s.rows, r.id < s.nextId

/-- No two rows of the table carry the same email. -/
def EmailsUnique (s : Store) : Prop :=
  s.rows.Pairwise (fun a b => a.fields.email ≠ b.fields.email)

/-- Every non-null `file_path` of the table names an existing file. -/
def FilePathsExist (s : Store) : Prop :=
  ∀ r ∈ s.rows, ∀ p, r.file_path = some p → existsSync s p = true

/-- Contacts with different ids never reference the same file. -/
def FilePathsOwned (s : Store) : Prop :=
  ∀ r1 ∈ s.rows, ∀ r2 ∈ s.rows, ∀ p,
    r1.file_path = some p → r2.file_path = some p → r1.id = r2.id

/-- The file name generated for the upload is not yet referenced by any row. -/
def FreshUpload (s : Store) (file : Option Upload) : Prop :=
  ∀ u, file = some u → ∀ r ∈ s.rows, r.file_path ≠ some u.path

/-- The handler left the table alone and touched no file other than the upload
of the request. -/
def OnlyUploadTouched (file : Option Upload) (s t : Store) : Prop :=
  t.rows = s.rows ∧ t.nextId = s.nextId ∧
    ∀ q, (∀ u, file = some u → q ≠ u.path) → existsSync t q = existsSync s q

/-- The value of `filePath` after `let filePath = oldFilePath; if (file) filePath
= file.path`. -/
def newFilePath (oldFilePath : Option String) (file : Option Upload) : Option String :=
  match file with
  | some u => some u.path
  | Option.none => oldFilePath

/-- The run of an Update with a new file in which the contact had a file, the
first query and the deletion of the old file went through, and the UPDATE
statement then threw. -/
def OldBlobLost (f : Faults) (s : Store) : Request → Prop
  | Request.update id _ (some _) =>
    f.query1 = false ∧ f.unlink = false ∧ f.query2 = true ∧
      selectFilePath s id ≠ Option.none
  | _ => False

/-! ## Decision procedures for the vocabulary -/

instance (x : JsVal) : Decidable (Blank x) := by
  unfold Blank
  infer_instance

instance (x : JsVal) : Decidable (Falsy x) := by
  unfold Falsy
  infer_instance

instance (b : Fields) : Decidable (AnyBlank b) := by
  unfold AnyBlank
  infer_instance

instance (b : Fields) : Decidable (SomeFalsy b) := by
  unfold SomeFalsy
  infer_instance

instance (b : Fields) : Decidable (EmailHasAt b) :=
  match h : b.email with
  | JsVal.str e =>
    decidable_of_iff ('@' ∈ e.data) (by simp [EmailHasAt, h])
  | JsVal.null => isFalse (by simp [EmailHasAt, h])
  | JsVal.bool _ => isFalse (by simp [EmailHasAt, h])
  | JsVal.num _ => isFalse (by simp [EmailHasAt, h])
  | JsVal.arr _ => isFalse (by simp [EmailHasAt, h])
  | JsVal.obj _ => isFalse (by simp [EmailHasAt, h])

instance (b : Fields) : Decidable (EmailLacksAt b) :=
  match h : b.email with
  | JsVal.str e =>
    decidable_of_iff ('@' ∉ e.data) (by simp [EmailLacksAt, h])
  | JsVal.null => isFalse (by simp [EmailLacksAt, h])
  | JsVal.bool _ => isFalse (by simp [EmailLacksAt, h])
  | JsVal.num _ => isFalse (by simp [EmailLacksAt, h])
  | JsVal.arr _ => isFalse (by simp [EmailLacksAt, h])
  | JsVal.obj _ => isFalse (by simp [EmailLacksAt, h])

instance (s : Store) (email : JsVal) : Decidable (EmailTaken s email) := by
  unfold EmailTaken
  infer_instance

instance (s : Store) : Decidable (SeqAhead s) := by
  unfold SeqAhead
  infer_instance

instance (s : Store) : Decidable (EmailsUnique s) := by
  unfold EmailsUnique
  infer_instance

instance (s : Store) : Decidable (FilePathsExist s) :=
  decidable_of_iff (∀ r ∈ s.rows, ∀ p ∈ r.file_path, existsSync s p = true) (by
    simp only [FilePathsExist, Option.mem_def])

instance (s : Store) : Decidable (FilePathsOwned s) :=
  decidable_of_iff (∀ r1 ∈ s.rows, ∀ r2 ∈ s.rows, ∀ p ∈ r1.file_path,
      r2.file_path = some p → r1.id = r2.id) (by
    simp only [FilePathsOwned, Option.mem_def])

instance (s : Store) (file : Option Upload) : Decidable (FreshUpload s file) :=
  decidable_of_iff (∀ u ∈ file, ∀ r ∈ s.rows, r.file_path ≠ some u.path) (by
    simp only [FreshUpload, Option.mem_def])

instance (f : Faults) (s : Store) (req : Request) : Decidable (OldBlobLost f s req) := by
  cases req with
  | update id b file =>
    cases file with
    | none => exact isFalse (fun h => h)
    | some u =>
      unfold OldBlobLost
      infer_instance
  | create b file => exact isFalse (fun h => h)
  | list => exact isFalse (fun h => h)
  | delete id => exact isFalse (fun h => h)

/-! ## Sample data -/

/-- A complete, valid request body (the scenario of the specification). -/
def bodyA : Fields :=
  { name := JsVal.str "A", email := JsVal.str "a@x.com", emp_id := JsVal.str "1",
    salary := JsVal.str "100", age := JsVal.str "30", role := JsVal.str "eng",
    address := JsVal.str "addr", phone_number := JsVal.str "555" }

/-- A second valid body with a different email. -/
def bodyB : Fields :=
  { name := JsVal.str "B", email := JsVal.str "b@x.com", emp_id := JsVal.str "2",
    salary := JsVal.str "200", age := JsVal.str "40", role := JsVal.str "ops",
    address := JsVal.str "addr2", phone_number := JsVal.str "556" }

/-- An upload staged at time 5 under the name `a.txt`. -/
def uploadA : Upload := { now := 5, originalname := "a.txt" }

/-- An upload staged at time 9 under the name `b.txt`. -/
def uploadB : Upload := { now := 9, originalname := "b.txt" }

/-- The empty service: no contact, no file. -/
def emptyStore : Store := { rows := [], nextId := 1, blobs := [] }

/-- One contact (id 1, body `bodyA`) owning the file of `uploadA`. -/
def storeA : Store :=
  { rows := [{ id := 1, fields := bodyA, file_path := some "uploads/5-a.txt" }],
    nextId := 2, blobs := ["uploads/5-a.txt"] }

/-- Two contacts without files: id 1 with `bodyA`, id 2 with `bodyB`. -/
def storeAB : Store :=
  { rows := [{ id := 1, fields := bodyA, file_path := Option.none },
             { id := 2, fields := bodyB, file_path := Option.none }],
    nextId := 3, blobs := [] }

/-- Two contacts of different ids referencing the same file. -/
def storeShared : Store :=
  { rows := [{ id := 1, fields := bodyA, file_path := some "uploads/5-a.txt" },
             { id := 2, fields := bodyB, file_path := some "uploads/5-a.txt" }],
    nextId := 3, blobs := ["uploads/5-a.txt"] }

/-- The run in which only the UPDATE / INSERT / DELETE statement throws. -/
def secondQueryFails : Faults :=
  { query1 := false, query2 := true, unlink := false, cleanup := false }

/-- The run in which the deletion inside the `try` block throws and the one
inside the `catch` block goes through. -/
def unlinkFails : Faults :=
  { query1 := false, query2 := false, unlink := true, cleanup := false }

/-- The run in which every deletion throws. -/
def everyUnlinkFails : Faults :=
  { query1 := false, query2 := false, unlink := true, cleanup := true }

/-! ## Basic facts about the primitives -/

theorem truthy_eq_false_iff (x : JsVal) : truthy x = false ↔ Falsy x := by
  cases x <;> simp [truthy, Falsy, Blank]

theorem truthy_eq_true_iff (x : JsVal) : truthy x = true ↔ ¬ Falsy x := by
  rw [← truthy_eq_false_iff]; simp

theorem Falsy.of_blank {x : JsVal} (h : Blank x) : Falsy x :=
  Or.inl h

theorem anyFalsy_eq_true_iff (b : Fields) : anyFalsy b = true ↔ SomeFalsy b := by
  simp only [anyFalsy, SomeFalsy, Bool.or_eq_true, Bool.not_eq_true', truthy_eq_false_iff]
  tauto

theorem anyFalsy_eq_false_iff (b : Fields) : anyFalsy b = false ↔ ¬ SomeFalsy b := by
  rw [← anyFalsy_eq_true_iff]; simp

/-- A missing or empty field fails the required-field test. -/
theorem SomeFalsy.of_anyBlank {b : Fields} (h : AnyBlank b) : SomeFalsy b := by
  unfold AnyBlank at h
  unfold SomeFalsy
  rcases h with h | h | h | h | h | h | h | h
  · exact Or.inl (Or.inl h)
  · exact Or.inr (Or.inl (Or.inl h))
  · exact Or.inr (Or.inr (Or.inl (Or.inl h)))
  · exact Or.inr (Or.inr (Or.inr (Or.inl (Or.inl h))))
  · exact Or.inr (Or.inr (Or.inr (Or.inr (Or.inl (Or.inl h)))))
  · exact Or.inr (Or.inr (Or.inr (Or.inr (Or.inr (Or.inl (Or.inl h))))))
  · exact Or.inr (Or.inr (Or.inr (Or.inr (Or.inr (Or.inr (Or.inl (Or.inl h)))))))
  · exact Or.inr (Or.inr (Or.inr (Or.inr (Or.inr (Or.inr (Or.inr (Or.inl h)))))))

theorem includes_of_hasAt (b : Fields) (h : EmailHasAt b) : includes b.email = some true := by
  obtain ⟨e, he, hat⟩ := h
  simp [he, includes, hat]

theorem includes_of_lacksAt (b : Fields) (h : EmailLacksAt b) :
    includes b.email = some false := by
  obtain ⟨e, he, hat⟩ := h
  simp [he, includes, hat]

theorem email_ne_null_of_hasAt (b : Fields) (h : EmailHasAt b) : b.email ≠ JsVal.null := by
  obtain ⟨e, he, _⟩ := h
  simp [he]

theorem Upload.path_ne_empty (u : Upload) : u.path ≠ "" := by
  intro h
  have hlen := congrArg String.length h
  simp only [Upload.path, String.length_append] at hlen
  have h8 : "uploads/".length = 8 := by decide
  have h0 : "".length = 0 := by decide
  omega

theorem uploadSingle_rows (s : Store) (file : Option Upload) :
    (uploadSingle s file).rows = s.rows := by
  unfold uploadSingle
  cases file with
  | none => rfl
  | some u => by_cases h : u.path ∈ s.blobs <;> simp [h]

theorem uploadSingle_nextId (s : Store) (file : Option Upload) :
    (uploadSingle s file).nextId = s.nextId := by
  unfold uploadSingle
  cases file with
  | none => rfl
  | some u => by_cases h : u.path ∈ s.blobs <;> simp [h]

theorem mem_uploadSingle_blobs (s : Store) (file : Option Upload) (p : String) :
    p ∈ (uploadSingle s file).blobs ↔ p ∈ s.blobs ∨ file.map Upload.path = some p := by
  unfold uploadSingle
  cases file with
  | none => simp
  | some u =>
    by_cases h : u.path ∈ s.blobs
    · simp only [h, if_true, Option.map_some', Option.some.injEq]
      constructor
      · exact fun hp => Or.inl hp
      · rintro (hp | hp)
        · exact hp
        · exact hp ▸ h
    · simp only [h, if_false, List.mem_cons, Option.map_some', Option.some.injEq]
      constructor
      · rintro (hp | hp)
        · exact Or.inr hp.symm
        · exact Or.inl hp
      · rintro (hp | hp)
        · exact Or.inr hp
        · exact Or.inl hp.symm

theorem existsSync_iff (s : Store) (p : String) :
    existsSync s p = true ↔ p ≠ "" ∧ p ∈ s.blobs := by
  simp [existsSync]

theorem existsSync_uploadSingle (s : Store) (u : Upload) :
    existsSync (uploadSingle s (some u)) u.path = true := by
  rw [existsSync_iff]
  exact ⟨u.path_ne_empty, (mem_uploadSingle_blobs s (some u) u.path).2 (Or.inr rfl)⟩

theorem existsSync_uploadSingle_of_exists (s : Store) (file : Option Upload) (p : String)
    (h : existsSync s p = true) : existsSync (uploadSingle s file) p = true := by
  rw [existsSync_iff] at h ⊢
  exact ⟨h.1, (mem_uploadSingle_blobs s file p).2 (Or.inl h.2)⟩

/-- A successful `unlinkSync` removes exactly the named file and touches nothing else. -/
theorem unlinkSync_eq_some (s : Store) (p : String) (h : existsSync s p = true) :
    unlinkSync false s p = some { s with blobs := s.blobs.filter (fun q => decide (q ≠ p)) } := by
  simp [unlinkSync, h]

theorem unlinkSync_fails (s : Store) (p : String) : unlinkSync true s p = Option.none := by
  simp [unlinkSync]

theorem unlinkSync_spec (fl : Bool) (s s1 : Store) (p : String)
    (h : unlinkSync fl s p = some s1) :
    s1.rows = s.rows ∧ s1.nextId = s.nextId ∧ existsSync s1 p = false ∧
      ∀ q, q ≠ p → existsSync s1 q = existsSync s q := by
  unfold unlinkSync at h
  split at h
  · exact absurd h (by simp)
  · have h1 : s1 = { s with blobs := s.blobs.filter (fun q => decide (q ≠ p)) } :=
      (Option.some.inj h).symm
    subst h1
    refine ⟨rfl, rfl, ?_, ?_⟩
    · simp [existsSync]
    · intro q hq
      simp [existsSync, hq]

theorem mem_selectOrderById (s : Store) (c : Contact) :
    c ∈ selectOrderById s ↔ c ∈ s.rows :=
  (List.perm_insertionSort (fun a b : Contact => a.id ≤ b.id) s.rows).mem_iff

theorem selectByEmail_length_pos_iff (s : Store) (email : JsVal)
    (he : email ≠ JsVal.null) :
    (selectByEmail s email).length > 0 ↔ EmailTaken s email := by
  unfold selectByEmail EmailTaken
  rw [gt_iff_lt, List.length_pos_iff_exists_mem]
  constructor
  · rintro ⟨r, hr⟩
    rw [List.mem_filter] at hr
    exact ⟨r, hr.1, (of_decide_eq_true hr.2).2⟩
  · rintro ⟨r, hr, hre⟩
    exact ⟨r, List.mem_filter.2 ⟨hr, decide_eq_true ⟨he, hre⟩⟩⟩

theorem insertThrows_uploadSingle (f : Faults) (s : Store) (file : Option Upload) :
    insertThrows f (uploadSingle s file) = insertThrows f s := by
  unfold insertThrows
  rw [uploadSingle_rows, uploadSingle_nextId]

theorem insertThrows_eq_false_iff (f : Faults) (s : Store) :
    insertThrows f s = false ↔ f.query2 = false ∧ ∀ r ∈ s.rows, r.id ≠ s.nextId := by
  simp [insertThrows]

/-- On a table whose id sequence is ahead of its keys, the INSERT throws only
in a run where the query fails. -/
theorem insertThrows_of_seqAhead (f : Faults) (s : Store) (h : SeqAhead s) :
    insertThrows f s = f.query2 := by
  have hno : ¬ ∃ r ∈ s.rows, r.id = s.nextId := by
    rintro ⟨r, hr, hid⟩
    have := h r hr
    omega
  simp [insertThrows, hno]

/-! ## Create -/

theorem discardUpload_uploadSingle (f : Faults) (s : Store) (file : Option Upload)
    (hunlink : f.unlink = false) :
    ∃ s1, discardUpload f (uploadSingle s file) file = some s1 ∧ s1.rows = s.rows ∧
      s1.nextId = s.nextId ∧ ∀ u, file = some u → existsSync s1 u.path = false := by
  cases file with
  | none => exact ⟨s, rfl, rfl, rfl, by simp⟩
  | some u =>
    have hun := unlinkSync_eq_some _ _ (existsSync_uploadSingle s u)
    have hspec := unlinkSync_spec _ _ _ _ hun
    refine ⟨_, ?_, hspec.1.trans (uploadSingle_rows _ _),
      hspec.2.1.trans (uploadSingle_nextId _ _), ?_⟩
    · simp only [discardUpload, hunlink]
      exact hun
    · intro u1 hu1
      cases hu1
      exact hspec.2.2.1

/-- A rejection branch on a freshly staged request, when `unlinkSync` does not
throw: the response is sent, the table is untouched and the upload is gone. -/
theorem reject_uploadSingle (f : Faults) (s : Store) (file : Option Upload) (status : Nat)
    (msg : String) (hunlink : f.unlink = false) :
    ∃ s1, reject f (uploadSingle s file) file status msg =
        (s1, some (Reply.json status (Body.error msg))) ∧
      s1.rows = s.rows ∧ s1.nextId = s.nextId ∧
      ∀ u, file = some u → existsSync s1 u.path = false := by
  obtain ⟨s1, h1, h2⟩ := discardUpload_uploadSingle f s file hunlink
  exact ⟨s1, by simp [reject, h1], h2⟩

theorem postHandler_of_reply (f : Faults) (s s1 : Store) (b : Fields) (file : Option Upload)
    (r : Reply) (h : postTry f s b file = (s1, some r)) :
    postHandler f s b file = (s1, r) := by
  simp [postHandler, h]

theorem postHandler_of_throw (f : Faults) (s s1 : Store) (b : Fields) (file : Option Upload)
    (h : postTry f s b file = (s1, Option.none)) :
    postHandler f s b file = catchCleanup f s1 file "Internal server error" := by
  simp [postHandler, h]

/-- The `try` block of POST once the required-field test and the `@` test
have passed. -/
theorem postTry_valid (f : Faults) (s : Store) (b : Fields) (file : Option Upload)
    (hb : ¬ SomeFalsy b) (he : EmailHasAt b) :
    postTry f s b file =
      if f.query1 then (s, Option.none)
      else if (selectByEmail s b.email).length > 0 then
        reject f s file 409 "Contact with this email already exists."
      else if insertThrows f s then (s, Option.none)
      else
        ((insertContact s b (file.map Upload.path)).1,
          some (Reply.json 201 (Body.contact "Contact added successfully."
            (insertContact s b (file.map Upload.path)).2))) := by
  simp only [postTry, (anyFalsy_eq_false_iff b).2 hb, includes_of_hasAt b he,
    Bool.false_eq_true, if_false]

/-- C1 (amended). Create with a field that is missing, empty or otherwise
falsy answers 400 "All fields are required."; Create with eight truthy fields
and a text email lacking `@` answers 400 "Invalid email address."; in both
cases the table is as it was and the file attached to the request no longer
exists afterwards (the deletion not failing). -/
theorem post_rejects_invalid_fields (f : Faults) (s : Store) (b : Fields)
    (file : Option Upload) (hunlink : f.unlink = false) :
    (SomeFalsy b →
      (postContacts f s b file).2 = Reply.json 400 (Body.error "All fields are required.") ∧
      (postContacts f s b file).1.rows = s.rows ∧
      ∀ u, file = some u → existsSync (postContacts f s b file).1 u.path = false) ∧
    (¬ SomeFalsy b → EmailLacksAt b →
      (postContacts f s b file).2 = Reply.json 400 (Body.error "Invalid email address.") ∧
      (postContacts f s b file).1.rows = s.rows ∧
      ∀ u, file = some u → existsSync (postContacts f s b file).1 u.path = false) := by
  constructor
  · intro hb
    obtain ⟨s1, h1, h2, _, h4⟩ :=
      reject_uploadSingle f s file 400 "All fields are required." hunlink
    have htry : postTry f (uploadSingle s file) b file =
        (s1, some (Reply.json 400 (Body.error "All fields are required."))) := by
      simp only [postTry, (anyFalsy_eq_true_iff b).2 hb, if_true]
      exact h1
    have hres := postHandler_of_reply f _ _ b file _ htry
    unfold postContacts
    rw [hres]
    exact ⟨rfl, h2, h4⟩
  · intro hb he
    obtain ⟨s1, h1, h2, _, h4⟩ :=
      reject_uploadSingle f s file 400 "Invalid email address." hunlink
    have htry : postTry f (uploadSingle s file) b file =
        (s1, some (Reply.json 400 (Body.error "Invalid email address."))) := by
      simp only [postTry, (anyFalsy_eq_false_iff b).2 hb, includes_of_lacksAt b he,
        Bool.false_eq_true, if_false]
      exact h1
    have hres := postHandler_of_reply f _ _ b file _ htry
    unfold postContacts
    rw [hres]
    exact ⟨rfl, h2, h4⟩

theorem post_rejects_invalid_fields_witness :
    SomeFalsy { bodyA with salary := JsVal.str "" } ∧
    (postContacts Faults.none storeA { bodyA with salary := JsVal.str "" } (some uploadB)).2 =
      Reply.json 400 (Body.error "All fields are required.") ∧
    (postContacts Faults.none storeA { bodyA with salary := JsVal.str "" }
      (some uploadB)).1.rows = storeA.rows ∧
    existsSync (postContacts Faults.none storeA { bodyA with salary := JsVal.str "" }
      (some uploadB)).1 uploadB.path = false ∧
    (¬ SomeFalsy { bodyA with email := JsVal.str "a.x.com" } ∧
      EmailLacksAt { bodyA with email := JsVal.str "a.x.com" }) ∧
    (postContacts Faults.none storeA { bodyA with email := JsVal.str "a.x.com" }
      (some uploadB)).2 = Reply.json 400 (Body.error "Invalid email address.") :=
  have hb : SomeFalsy { bodyA with salary := JsVal.str "" } := by decide
  have h := (post_rejects_invalid_fields Faults.none storeA
    { bodyA with salary := JsVal.str "" } (some uploadB) rfl).1 hb
  have hb2 : ¬ SomeFalsy { bodyA with email := JsVal.str "a.x.com" } := by decide
  have he2 : EmailLacksAt { bodyA with email := JsVal.str "a.x.com" } := by decide
  have h2 := (post_rejects_invalid_fields Faults.none storeA
    { bodyA with email := JsVal.str "a.x.com" } (some uploadB) rfl).2 hb2 he2
  ⟨hb, h.1, h.2.1, h.2.2 uploadB rfl, ⟨hb2, he2⟩, h2.1⟩

/-- C1 as stated fails: with all eight fields present and an email that is the
number 5 (it contains no `@`), `email.includes` is not a function, the `try`
block throws and the answer is 500, not 400 "Invalid email address."; and with
a supplied salary of 0 and a text email lacking `@` the answer is 400 "All
fields are required.", not "Invalid email address.". -/
theorem post_non_text_email_answers_500 :
    (¬ AnyBlank { bodyA with email := JsVal.num 5 } ∧
      ¬ EmailHasAt { bodyA with email := JsVal.num 5 } ∧
      (handle Faults.none emptyStore
          (Request.create { bodyA with email := JsVal.num 5 } Option.none)).2 =
        Reply.json 500 (Body.error "Internal server error")) ∧
    (¬ AnyBlank { bodyA with salary := JsVal.num 0, email := JsVal.str "a.x.com" } ∧
      ¬ EmailHasAt { bodyA with salary := JsVal.num 0, email := JsVal.str "a.x.com" } ∧
      (handle Faults.none emptyStore
          (Request.create { bodyA with salary := JsVal.num 0, email := JsVal.str "a.x.com" }
            Option.none)).2 =
        Reply.json 400 (Body.error "All fields are required.")) := by
  decide

/-- C2. Create that passes the field validation of the handler and whose email
is already used by a contact answers 409, leaves the table as it was, and the
file attached to the request no longer exists afterwards (no query or deletion
failing). -/
theorem post_rejects_duplicate_email (f : Faults) (s : Store) (b : Fields)
    (file : Option Upload) (hq1 : f.query1 = false) (hunlink : f.unlink = false)
    (hb : ¬ SomeFalsy b) (he : EmailHasAt b) (hdup : EmailTaken s b.email) :
    (postContacts f s b file).2 =
      Reply.json 409 (Body.error "Contact with this email already exists.") ∧
    (postContacts f s b file).1.rows = s.rows ∧
    (postContacts f s b file).1.nextId = s.nextId ∧
    ∀ u, file = some u → existsSync (postContacts f s b file).1 u.path = false := by
  obtain ⟨s1, h1, h2, h3, h4⟩ :=
    reject_uploadSingle f s file 409 "Contact with this email already exists." hunlink
  have hdup1 : (selectByEmail (uploadSingle s file) b.email).length > 0 := by
    rw [selectByEmail_length_pos_iff _ _ (email_ne_null_of_hasAt b he)]
    unfold EmailTaken
    rw [uploadSingle_rows]
    exact hdup
  have htry : postTry f (uploadSingle s file) b file =
      (s1, some (Reply.json 409 (Body.error "Contact with this email already exists."))) := by
    rw [postTry_valid f _ b file hb he]
    simp only [hq1, hdup1, Bool.false_eq_true, if_false, if_true]
    exact h1
  have hres := postHandler_of_reply f _ _ b file _ htry
  unfold postContacts
  rw [hres]
  exact ⟨rfl, h2, h3, h4⟩

theorem post_rejects_duplicate_email_witness :
    ¬ SomeFalsy bodyA ∧ EmailHasAt bodyA ∧ EmailTaken storeA bodyA.email ∧
    (postContacts Faults.none storeA bodyA (some uploadB)).2 =
      Reply.json 409 (Body.error "Contact with this email already exists.") ∧
    (postContacts Faults.none storeA bodyA (some uploadB)).1.rows = storeA.rows ∧
    existsSync (postContacts Faults.none storeA bodyA (some uploadB)).1 uploadB.path = false :=
  have hb : ¬ SomeFalsy bodyA := by decide
  have he : EmailHasAt bodyA := by decide
  have hdup : EmailTaken storeA bodyA.email := by decide
  have h := post_rejects_duplicate_email Faults.none storeA bodyA (some uploadB) rfl rfl
    hb he hdup
  ⟨hb, he, hdup, h.1, h.2.1, h.2.2.2 uploadB rfl⟩

/-- C3 (amended). A Create whose eight fields are all truthy, whose email is
text containing `@` and used by no contact, with no store failure (neither the
SELECT nor the INSERT throws), answers 201 with a record that carries an id held
by no prior row, the supplied fields and the staged file path (null without a
file); a List made right afterwards returns that record and every record that
was there before. -/
theorem post_creates_contact (f : Faults) (s : Store) (b : Fields) (file : Option Upload)
    (hq1 : f.query1 = false) (hins : insertThrows f s = false)
    (hb : ¬ SomeFalsy b) (he : EmailHasAt b) (hnew : ¬ EmailTaken s b.email) :
    ∃ c : Contact,
      (postContacts f s b file).2 =
        Reply.json 201 (Body.contact "Contact added successfully." c) ∧
      (∀ r ∈ s.rows, r.id ≠ c.id) ∧
      c.fields = b ∧
      (∀ u, file = some u → c.file_path = some u.path) ∧
      (file = Option.none → c.file_path = Option.none) ∧
      ∃ l : List Contact,
        (getContacts Faults.none (postContacts f s b file).1).2 =
          Reply.json 200 (Body.rows l) ∧
        c ∈ l ∧ ∀ r ∈ s.rows, r ∈ l := by
  have hnodup : ¬ (selectByEmail (uploadSingle s file) b.email).length > 0 := by
    rw [selectByEmail_length_pos_iff _ _ (email_ne_null_of_hasAt b he)]
    unfold EmailTaken
    rw [uploadSingle_rows]
    exact hnew
  have hins1 : insertThrows f (uploadSingle s file) = false := by
    rw [insertThrows_uploadSingle]
    exact hins
  have htry : postTry f (uploadSingle s file) b file =
      ((insertContact (uploadSingle s file) b (file.map Upload.path)).1,
        some (Reply.json 201 (Body.contact "Contact added successfully."
          (insertContact (uploadSingle s file) b (file.map Upload.path)).2))) := by
    rw [postTry_valid f _ b file hb he]
    simp only [hq1, hnodup, hins1, Bool.false_eq_true, if_false]
  have hres := postHandler_of_reply f _ _ b file _ htry
  refine ⟨(insertContact (uploadSingle s file) b (file.map Upload.path)).2, ?_, ?_, rfl, ?_,
    ?_, ?_⟩
  · unfold postContacts
    rw [hres]
  · intro r hr
    have hkey := ((insertThrows_eq_false_iff f s).1 hins).2 r hr
    simp only [insertContact, uploadSingle_nextId]
    exact hkey
  · intro u hu
    subst hu
    rfl
  · intro hnone
    subst hnone
    rfl
  · refine ⟨selectOrderById (postContacts f s b file).1, ?_, ?_, ?_⟩
    · simp [getContacts, getTry, Faults.none]
    · rw [mem_selectOrderById]
      unfold postContacts
      rw [hres]
      simp [insertContact]
    · intro r hr
      rw [mem_selectOrderById]
      unfold postContacts
      rw [hres]
      simp [insertContact, uploadSingle_rows, hr]

theorem post_creates_contact_witness :
    insertThrows Faults.none storeA = false ∧ ¬ SomeFalsy bodyB ∧ EmailHasAt bodyB ∧
    ¬ EmailTaken storeA bodyB.email ∧
    ∃ c : Contact,
      (postContacts Faults.none storeA bodyB (some uploadB)).2 =
        Reply.json 201 (Body.contact "Contact added successfully." c) ∧
      (∀ r ∈ storeA.rows, r.id ≠ c.id) ∧
      c.fields = bodyB ∧
      (∀ u, some uploadB = some u → c.file_path = some u.path) ∧
      (some uploadB = Option.none → c.file_path = Option.none) ∧
      ∃ l : List Contact,
        (getContacts Faults.none (postContacts Faults.none storeA bodyB (some uploadB)).1).2 =
          Reply.json 200 (Body.rows l) ∧
        c ∈ l ∧ ∀ r ∈ storeA.rows, r ∈ l :=
  have hins : insertThrows Faults.none storeA = false := by decide
  have hb : ¬ SomeFalsy bodyB := by decide
  have he : EmailHasAt bodyB := by decide
  have hnew : ¬ EmailTaken storeA bodyB.email := by decide
  ⟨hins, hb, he, hnew,
    post_creates_contact Faults.none storeA bodyB (some uploadB) rfl hins hb he hnew⟩

/-- C3 as stated fails: a Create with all eight fields supplied, an email that
contains `@` and is used by no contact, and no failure, is answered 400 when
the supplied salary is the number 0, and nothing is inserted. -/
theorem post_rejects_supplied_zero :
    ¬ AnyBlank { bodyA with salary := JsVal.num 0 } ∧
    EmailHasAt { bodyA with salary := JsVal.num 0 } ∧
    ¬ EmailTaken emptyStore ({ bodyA with salary := JsVal.num 0 } : Fields).email ∧
    (handle Faults.none emptyStore
        (Request.create { bodyA with salary := JsVal.num 0 } Option.none)).2 =
      Reply.json 400 (Body.error "All fields are required.") ∧
    (handle Faults.none emptyStore
        (Request.create { bodyA with salary := JsVal.num 0 } Option.none)).1.rows = [] := by
  decide

/-! ## Update -/

theorem rowWithId_uploadSingle (s : Store) (file : Option Upload) (id : Nat) :
    rowWithId (uploadSingle s file) id = rowWithId s id := by
  unfold rowWithId
  rw [uploadSingle_rows]

theorem rowWithId_some (s : Store) (id : Nat) (old : Contact)
    (h : rowWithId s id = some old) : old ∈ s.rows ∧ old.id = id := by
  unfold rowWithId at h
  exact ⟨List.mem_of_find?_eq_some h, by simpa using List.find?_some h⟩

theorem rowWithId_eq_none_iff (s : Store) (id : Nat) :
    rowWithId s id = Option.none ↔ ∀ r ∈ s.rows, r.id ≠ id := by
  unfold rowWithId
  rw [List.find?_eq_none]
  simp

theorem selectFilePath_of_rowWithId (s : Store) (id : Nat) (old : Contact)
    (h : rowWithId s id = some old) : selectFilePath s id = old.file_path := by
  unfold rowWithId at h
  simp [selectFilePath, h]

theorem selectFilePath_of_absent (s : Store) (id : Nat) (h : ∀ r ∈ s.rows, r.id ≠ id) :
    selectFilePath s id = Option.none := by
  have h1 := (rowWithId_eq_none_iff s id).2 h
  unfold rowWithId at h1
  simp [selectFilePath, h1]

theorem filter_of_find? {α : Type} (p : α → Bool) (l : List α) (a : α)
    (h : l.find? p = some a) : ∃ l1, l.filter p = a :: l1 := by
  induction l with
  | nil => simp at h
  | cons x xs ih =>
    by_cases hx : p x = true
    · rw [List.find?_cons_of_pos _ hx] at h
      cases h
      exact ⟨xs.filter p, List.filter_cons_of_pos hx⟩
    · rw [List.find?_cons_of_neg _ hx] at h
      obtain ⟨l1, hl1⟩ := ih h
      exact ⟨l1, by rw [List.filter_cons_of_neg hx, hl1]⟩

/-- The rows returned by the UPDATE start with the designated contact, rewritten. -/
theorem updateContact_returning (s : Store) (id : Nat) (b : Fields) (fp : Option String)
    (old : Contact) (h : rowWithId s id = some old) :
    ∃ rest, (updateContact s id b fp).2 =
      { id := id, fields := b, file_path := fp } :: rest := by
  obtain ⟨l1, hl1⟩ := filter_of_find? _ _ _ h
  have hid := (rowWithId_some s id old h).2
  refine ⟨l1.map (fun r => if r.id = id then { id := r.id, fields := b, file_path := fp }
    else r), ?_⟩
  simp only [updateContact]
  rw [hl1]
  simp [hid]

theorem updateContact_absent (s : Store) (id : Nat) (b : Fields) (fp : Option String)
    (h : ∀ r ∈ s.rows, r.id ≠ id) : updateContact s id b fp = (s, []) := by
  have hf : s.rows.filter (fun r => decide (r.id = id)) = [] := by
    rw [List.filter_eq_nil_iff]
    intro r hr
    simpa using h r hr
  have hm : s.rows.map (fun r => if r.id = id then
      ({ id := r.id, fields := b, file_path := fp } : Contact) else r) = s.rows := by
    conv_rhs => rw [← List.map_id s.rows]
    apply List.map_congr_left
    intro r hr
    simp [h r hr]
  simp only [updateContact]
  rw [hf, hm]
  rfl

theorem updateContact_blobs (s : Store) (id : Nat) (b : Fields) (fp : Option String) :
    (updateContact s id b fp).1.blobs = s.blobs ∧
      (updateContact s id b fp).1.nextId = s.nextId := ⟨rfl, rfl⟩

theorem mem_updateContact_rows (s : Store) (id : Nat) (b : Fields) (fp : Option String)
    (r : Contact) :
    r ∈ (updateContact s id b fp).1.rows ↔
      (r ∈ s.rows ∧ r.id ≠ id) ∨
        (r = { id := id, fields := b, file_path := fp } ∧ ∃ r0 ∈ s.rows, r0.id = id) := by
  simp only [updateContact, List.mem_map]
  constructor
  · rintro ⟨r0, hr0, hr⟩
    by_cases hid : r0.id = id
    · right
      rw [if_pos hid] at hr
      exact ⟨by rw [← hr, hid], r0, hr0, hid⟩
    · left
      rw [if_neg hid] at hr
      subst hr
      exact ⟨hr0, hid⟩
  · rintro (⟨hr, hid⟩ | ⟨hr, r0, hr0, hid⟩)
    · exact ⟨r, hr, by rw [if_neg hid]⟩
    · exact ⟨r0, hr0, by rw [if_pos hid, hr, hid]⟩

theorem updateContact_others (s : Store) (id : Nat) (b : Fields) (fp : Option String) :
    (updateContact s id b fp).1.rows.filter (fun r => decide (r.id ≠ id)) =
      s.rows.filter (fun r => decide (r.id ≠ id)) := by
  simp only [updateContact]
  induction s.rows with
  | nil => rfl
  | cons x xs ih =>
    by_cases hx : x.id = id
    · rw [List.map_cons, if_pos hx, List.filter_cons_of_neg (by simp [hx]),
        List.filter_cons_of_neg (by simp [hx]), ih]
    · rw [List.map_cons, if_neg hx, List.filter_cons_of_pos (by simp [hx]),
        List.filter_cons_of_pos (by simp [hx]), ih]

theorem putHandler_of_reply (f : Faults) (s s1 : Store) (id : Nat) (b : Fields)
    (file : Option Upload) (r : Reply) (h : putTry f s id b file = (s1, some r)) :
    putHandler f s id b file = (s1, r) := by
  simp [putHandler, h]

theorem putHandler_of_throw (f : Faults) (s s1 : Store) (id : Nat) (b : Fields)
    (file : Option Upload) (h : putTry f s id b file = (s1, Option.none)) :
    putHandler f s id b file = catchCleanup f s1 file "Database error" := by
  simp [putHandler, h]

/-- The PUT `try` block once neither query throws and the file replacement
step has produced store `s1` and path `fp`, for a designated contact. -/
theorem putTry_found (f : Faults) (s s1 : Store) (id : Nat) (b : Fields)
    (file : Option Upload) (fp : Option String) (old : Contact)
    (hq1 : f.query1 = false) (hq2 : f.query2 = false)
    (hrep : replaceFile f s (selectFilePath s id) file = some (s1, fp))
    (hold : rowWithId s1 id = some old) :
    putTry f s id b file = ((updateContact s1 id b fp).1,
      some (Reply.json 200 (Body.contact "Contact updated successfully."
        { id := id, fields := b, file_path := fp }))) := by
  obtain ⟨rest, hrest⟩ := updateContact_returning s1 id b fp old hold
  simp only [putTry, hq1, hq2, hrep, Bool.false_eq_true, if_false]
  have hpair : updateContact s1 id b fp = ((updateContact s1 id b fp).1,
      { id := id, fields := b, file_path := fp } :: rest) := by
    rw [← hrest]
  rw [hpair]

theorem existsSync_congr (s t : Store) (p : String) (h : s.blobs = t.blobs) :
    existsSync s p = existsSync t p := by
  simp [existsSync, h]

/-- The file replacement step of PUT when a file is attached and `unlinkSync`
does not throw: the new path is the staged one, the old blob is gone, every
other file is as before. -/
theorem replaceFile_some (f : Faults) (s : Store) (old : Option String) (u : Upload)
    (hunlink : f.unlink = false) :
    ∃ s1, replaceFile f s old (some u) = some (s1, some u.path) ∧
      s1.rows = s.rows ∧ s1.nextId = s.nextId ∧
      (∀ p, old = some p → existsSync s1 p = false) ∧
      (∀ q, old ≠ some q → existsSync s1 q = existsSync s q) := by
  cases old with
  | none => exact ⟨s, rfl, rfl, rfl, by simp, fun _ _ => rfl⟩
  | some p =>
    by_cases hex : existsSync s p = true
    · have hun := unlinkSync_eq_some s p hex
      have hspec := unlinkSync_spec _ _ _ _ hun
      have hp : p ≠ "" := ((existsSync_iff s p).1 hex).1
      refine ⟨_, ?_, hspec.1, hspec.2.1, ?_, ?_⟩
      · simp only [replaceFile, truthy, hex, hunlink, hun, hp, ne_eq, not_false_eq_true,
          decide_True, Bool.and_self, if_true]
      · intro p1 hp1
        cases hp1
        exact hspec.2.2.1
      · intro q hq
        exact hspec.2.2.2 q (fun h => hq (by rw [h]))
    · refine ⟨s, ?_, rfl, rfl, ?_, fun _ _ => rfl⟩
      · simp [replaceFile, hex]
      · intro p1 hp1
        cases hp1
        simpa using hex

/-- C4. Update of an existing contact without a file, no query failing, answers
200 with the row of that id carrying the file path it had before and the eight
supplied fields; no file is created or removed and rows of other ids are as
before. -/
theorem put_without_file_keeps_file_path (f : Faults) (s : Store) (id : Nat) (b : Fields)
    (old : Contact) (hq1 : f.query1 = false) (hq2 : f.query2 = false)
    (hold : rowWithId s id = some old) :
    (putContact f s id b Option.none).2 =
      Reply.json 200 (Body.contact "Contact updated successfully."
        { id := id, fields := b, file_path := old.file_path }) ∧
    (putContact f s id b Option.none).1.blobs = s.blobs ∧
    (putContact f s id b Option.none).1.rows.filter (fun r => decide (r.id ≠ id)) =
      s.rows.filter (fun r => decide (r.id ≠ id)) ∧
    (putContact f s id b Option.none).1.rows.length = s.rows.length ∧
    ∀ r ∈ (putContact f s id b Option.none).1.rows, r.id = id →
      r = { id := id, fields := b, file_path := old.file_path } := by
  have hrep : replaceFile f s (selectFilePath s id) Option.none = some (s, old.file_path) := by
    rw [selectFilePath_of_rowWithId s id old hold]
    rfl
  have htry := putTry_found f s s id b Option.none old.file_path old hq1 hq2 hrep hold
  have hres : putContact f s id b Option.none = ((updateContact s id b old.file_path).1,
      Reply.json 200 (Body.contact "Contact updated successfully."
        { id := id, fields := b, file_path := old.file_path })) :=
    putHandler_of_reply f s _ id b Option.none _ htry
  rw [hres]
  refine ⟨rfl, rfl, updateContact_others s id b old.file_path, ?_, ?_⟩
  · simp [updateContact]
  · intro r hr hid
    rcases (mem_updateContact_rows s id b old.file_path r).1 hr with ⟨_, hne⟩ | ⟨heq, _⟩
    · exact absurd hid hne
    · exact heq

theorem put_without_file_keeps_file_path_witness :
    rowWithId storeA 1 = some { id := 1, fields := bodyA, file_path := some "uploads/5-a.txt" } ∧
    (putContact Faults.none storeA 1 { bodyA with role := JsVal.str "lead" } Option.none).2 =
      Reply.json 200 (Body.contact "Contact updated successfully."
        { id := 1, fields := { bodyA with role := JsVal.str "lead" },
          file_path := some "uploads/5-a.txt" }) ∧
    (putContact Faults.none storeA 1 { bodyA with role := JsVal.str "lead" } Option.none).1.blobs =
      storeA.blobs :=
  have h := put_without_file_keeps_file_path Faults.none storeA 1
    { bodyA with role := JsVal.str "lead" }
    { id := 1, fields := bodyA, file_path := some "uploads/5-a.txt" } rfl rfl (by decide)
  ⟨by decide, h.1, h.2.1⟩

/-- C5 (amended). Update of an existing contact with a new file whose staged
name differs from the contact's previous file path, no query or deletion
failing, answers 200 with a record whose file path is the newly staged one; that
file exists afterwards and the file at the previous path no longer does. -/
theorem put_with_file_replaces_blob (f : Faults) (s : Store) (id : Nat) (b : Fields)
    (u : Upload) (old : Contact) (hq1 : f.query1 = false) (hq2 : f.query2 = false)
    (hunlink : f.unlink = false) (hold : rowWithId s id = some old)
    (hfresh : old.file_path ≠ some u.path) :
    (putContact f s id b (some u)).2 =
      Reply.json 200 (Body.contact "Contact updated successfully."
        { id := id, fields := b, file_path := some u.path }) ∧
    existsSync (putContact f s id b (some u)).1 u.path = true ∧
    ∀ p, old.file_path = some p → existsSync (putContact f s id b (some u)).1 p = false := by
  have hold1 : rowWithId (uploadSingle s (some u)) id = some old := by
    rw [rowWithId_uploadSingle]
    exact hold
  obtain ⟨s1, hrep, hrows, _, hgone, hkept⟩ :=
    replaceFile_some f (uploadSingle s (some u)) old.file_path u hunlink
  have hold2 : rowWithId s1 id = some old := by
    unfold rowWithId at hold1 ⊢
    rw [hrows]
    exact hold1
  rw [← selectFilePath_of_rowWithId _ id old hold1] at hrep
  have htry := putTry_found f _ s1 id b (some u) (some u.path) old hq1 hq2 hrep hold2
  have hres : putContact f s id b (some u) = ((updateContact s1 id b (some u.path)).1,
      Reply.json 200 (Body.contact "Contact updated successfully."
        { id := id, fields := b, file_path := some u.path })) :=
    putHandler_of_reply f _ _ id b (some u) _ htry
  rw [hres]
  refine ⟨rfl, ?_, ?_⟩
  · rw [existsSync_congr _ s1 _ (updateContact_blobs s1 id b (some u.path)).1,
      hkept u.path hfresh]
    exact existsSync_uploadSingle s u
  · intro p hp
    rw [existsSync_congr _ s1 _ (updateContact_blobs s1 id b (some u.path)).1]
    exact hgone p hp

theorem put_with_file_replaces_blob_witness :
    (putContact Faults.none storeA 1 bodyA (some uploadB)).2 =
      Reply.json 200 (Body.contact "Contact updated successfully."
        { id := 1, fields := bodyA, file_path := some uploadB.path }) ∧
    existsSync (putContact Faults.none storeA 1 bodyA (some uploadB)).1 uploadB.path = true ∧
    existsSync (putContact Faults.none storeA 1 bodyA (some uploadB)).1 "uploads/5-a.txt" =
      false :=
  have h := put_with_file_replaces_blob Faults.none storeA 1 bodyA uploadB
    { id := 1, fields := bodyA, file_path := some "uploads/5-a.txt" } rfl rfl rfl
    (by decide) (by decide)
  ⟨h.1, h.2.1, h.2.2 "uploads/5-a.txt" rfl⟩

/-- C5 as stated fails: when the upload of an Update receives the very name of
the contact's previous file, the handler deletes the file that was just staged;
the answer is 200 with that path as `file_path`, and no such file exists. -/
theorem put_colliding_upload_loses_new_file :
    rowWithId storeA 1 =
      some { id := 1, fields := bodyA, file_path := some "uploads/5-a.txt" } ∧
    (handle Faults.none storeA (Request.update 1 bodyA (some uploadA))).2 =
      Reply.json 200 (Body.contact "Contact updated successfully."
        { id := 1, fields := bodyA, file_path := some uploadA.path }) ∧
    existsSync (handle Faults.none storeA (Request.update 1 bodyA (some uploadA))).1
      uploadA.path = false := by
  decide

/-- C10. Update with an id that designates no contact, no query failing,
answers 404; the table is as before, every file that existed still exists, and
the newly attached file (if any) is still there. -/
theorem put_unknown_id_not_found (f : Faults) (s : Store) (id : Nat) (b : Fields)
    (file : Option Upload) (hq1 : f.query1 = false) (hq2 : f.query2 = false)
    (habsent : ∀ r ∈ s.rows, r.id ≠ id) :
    (putContact f s id b file).2 = Reply.json 404 (Body.error "Contact not found") ∧
    (putContact f s id b file).1.rows = s.rows ∧
    (putContact f s id b file).1.nextId = s.nextId ∧
    (∀ p, existsSync s p = true → existsSync (putContact f s id b file).1 p = true) ∧
    ∀ u, file = some u → existsSync (putContact f s id b file).1 u.path = true := by
  have habsent1 : ∀ r ∈ (uploadSingle s file).rows, r.id ≠ id := by
    rw [uploadSingle_rows]
    exact habsent
  have hrep : ∃ fp, replaceFile f (uploadSingle s file)
      (selectFilePath (uploadSingle s file) id) file = some (uploadSingle s file, fp) := by
    rw [selectFilePath_of_absent _ id habsent1]
    cases file with
    | none => exact ⟨Option.none, rfl⟩
    | some u => exact ⟨some u.path, rfl⟩
  obtain ⟨fp, hfp⟩ := hrep
  have htry : putTry f (uploadSingle s file) id b file =
      (uploadSingle s file, some (Reply.json 404 (Body.error "Contact not found"))) := by
    simp only [putTry, hq1, hq2, hfp, Bool.false_eq_true, if_false]
    rw [updateContact_absent _ id b fp habsent1]
  have hres : putContact f s id b file =
      (uploadSingle s file, Reply.json 404 (Body.error "Contact not found")) :=
    putHandler_of_reply f _ _ id b file _ htry
  rw [hres]
  refine ⟨rfl, uploadSingle_rows s file, uploadSingle_nextId s file, ?_, ?_⟩
  · intro p hp
    exact existsSync_uploadSingle_of_exists s file p hp
  · intro u hu
    subst hu
    exact existsSync_uploadSingle s u

theorem put_unknown_id_not_found_witness :
    (∀ r ∈ storeA.rows, r.id ≠ 7) ∧
    (putContact Faults.none storeA 7 bodyB (some uploadB)).2 =
      Reply.json 404 (Body.error "Contact not found") ∧
    (putContact Faults.none storeA 7 bodyB (some uploadB)).1.rows = storeA.rows ∧
    existsSync (putContact Faults.none storeA 7 bodyB (some uploadB)).1 "uploads/5-a.txt" =
      true ∧
    existsSync (putContact Faults.none storeA 7 bodyB (some uploadB)).1 uploadB.path = true :=
  have habsent : ∀ r ∈ storeA.rows, r.id ≠ 7 := by decide
  have h := put_unknown_id_not_found Faults.none storeA 7 bodyB (some uploadB) rfl rfl habsent
  ⟨habsent, h.1, h.2.1, h.2.2.2.1 "uploads/5-a.txt" (by decide), h.2.2.2.2 uploadB rfl⟩

/-! ## Delete -/

theorem deleteRows_returning (s : Store) (id : Nat) (old : Contact)
    (h : rowWithId s id = some old) : ∃ rest, (deleteRows s id).2 = old :: rest :=
  filter_of_find? _ _ _ h

theorem deleteRows_absent (s : Store) (id : Nat) (h : ∀ r ∈ s.rows, r.id ≠ id) :
    deleteRows s id = (s, []) := by
  have h1 : s.rows.filter (fun r => decide (r.id ≠ id)) = s.rows := by
    rw [List.filter_eq_self]
    intro r hr
    simpa using h r hr
  have h2 : s.rows.filter (fun r => decide (r.id = id)) = [] := by
    rw [List.filter_eq_nil_iff]
    intro r hr
    simpa using h r hr
  simp only [deleteRows]
  rw [h1, h2]

theorem mem_deleteRows_rows (s : Store) (id : Nat) (r : Contact) :
    r ∈ (deleteRows s id).1.rows ↔ r ∈ s.rows ∧ r.id ≠ id := by
  simp [deleteRows, List.mem_filter]

/-- The blob removal step of DELETE when `unlinkSync` does not throw. -/
theorem removeBlob_ok (f : Faults) (s : Store) (fp : Option String)
    (hunlink : f.unlink = false) :
    ∃ s1, removeBlob f s fp = some s1 ∧ s1.rows = s.rows ∧ s1.nextId = s.nextId ∧
      (∀ p, fp = some p → existsSync s1 p = false) ∧
      (∀ q, fp ≠ some q → existsSync s1 q = existsSync s q) := by
  cases fp with
  | none => exact ⟨s, by simp [removeBlob, truthy], rfl, rfl, by simp, fun _ _ => rfl⟩
  | some p =>
    by_cases hex : existsSync s p = true
    · have hun := unlinkSync_eq_some s p hex
      have hspec := unlinkSync_spec _ _ _ _ hun
      have hp : p ≠ "" := ((existsSync_iff s p).1 hex).1
      refine ⟨_, ?_, hspec.1, hspec.2.1, ?_, ?_⟩
      · simp only [removeBlob, truthy, hex, hunlink, hp, ne_eq, not_false_eq_true,
          decide_True, if_true]
        exact hun
      · intro p1 hp1
        cases hp1
        exact hspec.2.2.1
      · intro q hq
        exact hspec.2.2.2 q (fun h => hq (by rw [h]))
    · refine ⟨s, ?_, rfl, rfl, ?_, fun _ _ => rfl⟩
      · by_cases hp : p = ""
        · simp [removeBlob, truthy, hp]
        · simp [removeBlob, truthy, hp, hex]
      · intro p1 hp1
        cases hp1
        simpa using hex

/-- C6. Delete, no query or deletion failing: for an existing contact the
answer is 200 with the deleted record, no row of that id is left (nor returned
by a following List), rows of other ids are as before, and the file at its path
no longer exists; for an id that designates no contact the answer is 404 and
the store is unchanged. -/
theorem delete_contact_spec (f : Faults) (s : Store) (id : Nat)
    (hq1 : f.query1 = false) (hq2 : f.query2 = false) (hunlink : f.unlink = false) :
    (∀ old, rowWithId s id = some old →
      (deleteContact f s id).2 =
        Reply.json 200 (Body.contact "Contact deleted successfully." old) ∧
      (∀ r, r ∈ (deleteContact f s id).1.rows ↔ r ∈ s.rows ∧ r.id ≠ id) ∧
      (∃ l, (getContacts Faults.none (deleteContact f s id).1).2 =
          Reply.json 200 (Body.rows l) ∧
        (∀ r ∈ l, r.id ≠ id) ∧ ∀ r ∈ s.rows, r.id ≠ id → r ∈ l) ∧
      ∀ p, old.file_path = some p → existsSync (deleteContact f s id).1 p = false) ∧
    ((∀ r ∈ s.rows, r.id ≠ id) →
      (deleteContact f s id).2 = Reply.json 404 (Body.error "Contact not found") ∧
      (deleteContact f s id).1 = s) := by
  constructor
  · intro old hold
    obtain ⟨rest, hrest⟩ := deleteRows_returning s id old hold
    obtain ⟨s2, hrm, hrows, _, hgone, _⟩ :=
      removeBlob_ok f (deleteRows s id).1 (selectFilePath s id) hunlink
    have hpair : deleteRows s id = ((deleteRows s id).1, old :: rest) := by
      rw [← hrest]
    have hres : deleteContact f s id =
        (s2, Reply.json 200 (Body.contact "Contact deleted successfully." old)) := by
      simp only [deleteContact, deleteTry, hq1, hq2, Bool.false_eq_true, if_false]
      rw [hpair]
      simp only [hrm]
    have hmem : ∀ r, r ∈ s2.rows ↔ r ∈ s.rows ∧ r.id ≠ id := by
      intro r
      rw [hrows]
      exact mem_deleteRows_rows s id r
    rw [hres]
    refine ⟨rfl, hmem, ⟨selectOrderById s2, ?_, ?_, ?_⟩, ?_⟩
    · simp [getContacts, getTry, Faults.none]
    · intro r hr
      exact ((hmem r).1 ((mem_selectOrderById s2 r).1 hr)).2
    · intro r hr hid
      exact (mem_selectOrderById s2 r).2 ((hmem r).2 ⟨hr, hid⟩)
    · intro p hp
      apply hgone p
      rw [selectFilePath_of_rowWithId s id old hold]
      exact hp
  · intro habsent
    have hres : deleteContact f s id = (s, Reply.json 404 (Body.error "Contact not found")) := by
      simp only [deleteContact, deleteTry, hq1, hq2, Bool.false_eq_true, if_false]
      rw [deleteRows_absent s id habsent]
    rw [hres]
    exact ⟨rfl, rfl⟩

theorem delete_contact_spec_witness :
    ((deleteContact Faults.none storeA 1).2 =
        Reply.json 200 (Body.contact "Contact deleted successfully."
          { id := 1, fields := bodyA, file_path := some "uploads/5-a.txt" }) ∧
      existsSync (deleteContact Faults.none storeA 1).1 "uploads/5-a.txt" = false) ∧
    ((deleteContact Faults.none storeA 7).2 =
        Reply.json 404 (Body.error "Contact not found") ∧
      (deleteContact Faults.none storeA 7).1 = storeA) :=
  have h1 := (delete_contact_spec Faults.none storeA 1 rfl rfl rfl).1
    { id := 1, fields := bodyA, file_path := some "uploads/5-a.txt" } (by decide)
  have h2 := (delete_contact_spec Faults.none storeA 7 rfl rfl rfl).2 (by decide)
  ⟨⟨h1.1, h1.2.2.2 "uploads/5-a.txt" rfl⟩, h2⟩

/-! ## Frame lemmas: what a handler may touch -/

theorem OnlyUploadTouched.refl (file : Option Upload) (s : Store) :
    OnlyUploadTouched file s s :=
  ⟨rfl, rfl, fun _ _ => rfl⟩

theorem OnlyUploadTouched.trans {file : Option Upload} {s t w : Store}
    (h1 : OnlyUploadTouched file s t) (h2 : OnlyUploadTouched file t w) :
    OnlyUploadTouched file s w :=
  ⟨h2.1.trans h1.1, h2.2.1.trans h1.2.1, fun q hq => (h2.2.2 q hq).trans (h1.2.2 q hq)⟩

theorem uploadSingle_only (s : Store) (file : Option Upload) :
    OnlyUploadTouched file s (uploadSingle s file) := by
  refine ⟨uploadSingle_rows s file, uploadSingle_nextId s file, ?_⟩
  intro q hq
  have hmem := mem_uploadSingle_blobs s file q
  have hne : ¬ file.map Upload.path = some q := by
    cases file with
    | none => simp
    | some u =>
      have := hq u rfl
      simpa using fun h => this h.symm
  simp only [existsSync, hmem, hne, or_false]

theorem unlinkSync_only (fl : Bool) (s s1 : Store) (u : Upload)
    (h : unlinkSync fl s u.path = some s1) : OnlyUploadTouched (some u) s s1 := by
  have hspec := unlinkSync_spec fl s s1 u.path h
  exact ⟨hspec.1, hspec.2.1, fun q hq => hspec.2.2.2 q (hq u rfl)⟩

theorem reject_only (f : Faults) (s : Store) (file : Option Upload) (status : Nat)
    (msg : String) : OnlyUploadTouched file s (reject f s file status msg).1 := by
  cases file with
  | none => exact OnlyUploadTouched.refl _ s
  | some u =>
    cases h : unlinkSync f.unlink s u.path with
    | none =>
      simp only [reject, discardUpload, h]
      exact OnlyUploadTouched.refl _ s
    | some s1 =>
      simp only [reject, discardUpload, h]
      exact unlinkSync_only _ _ _ _ h

theorem catchCleanup_only (f : Faults) (s : Store) (file : Option Upload) (msg : String) :
    OnlyUploadTouched file s (catchCleanup f s file msg).1 := by
  unfold catchCleanup
  cases file with
  | none => exact OnlyUploadTouched.refl _ s
  | some u =>
    by_cases hex : existsSync s u.path = true
    · simp only [hex, if_true]
      cases h : unlinkSync f.cleanup s u.path with
      | none => exact OnlyUploadTouched.refl _ s
      | some s1 => exact unlinkSync_only _ _ _ _ h
    · simp only [hex, Bool.false_eq_true, if_false]
      exact OnlyUploadTouched.refl _ s

/-- When the deletion in the `catch` block does not throw, the block answers 500. -/
theorem catchCleanup_reply (f : Faults) (s : Store) (file : Option Upload) (msg : String)
    (hcleanup : f.cleanup = false) :
    (catchCleanup f s file msg).2 = Reply.json 500 (Body.error msg) := by
  unfold catchCleanup
  cases file with
  | none => rfl
  | some u =>
    by_cases hex : existsSync s u.path = true
    · simp only [hex, if_true, hcleanup, unlinkSync_eq_some s u.path hex]
    · simp only [hex, Bool.false_eq_true, if_false]

/-- The store after Create: either only the upload was touched, or the row was
inserted on top of the staged store (all checks passed, no query threw). -/
theorem postContacts_store_cases (f : Faults) (s : Store) (b : Fields)
    (file : Option Upload) :
    OnlyUploadTouched file s (postContacts f s b file).1 ∨
    ((postContacts f s b file).1 =
        (insertContact (uploadSingle s file) b (file.map Upload.path)).1 ∧
      ¬ EmailTaken s b.email) := by
  have hstage := uploadSingle_only s file
  unfold postContacts postHandler
  have hrej : ∀ status msg,
      OnlyUploadTouched file s
        (match reject f (uploadSingle s file) file status msg with
          | (s1, some r) => (s1, r)
          | (s1, Option.none) => catchCleanup f s1 file "Internal server error").1 := by
    intro status msg
    have h1 := reject_only f (uploadSingle s file) file status msg
    rcases hr : reject f (uploadSingle s file) file status msg with ⟨s1, _ | r⟩
    · rw [hr] at h1
      exact hstage.trans (h1.trans (catchCleanup_only f s1 file _))
    · rw [hr] at h1
      exact hstage.trans h1
  by_cases hb : anyFalsy b = true
  · left
    simp only [postTry, hb, if_true]
    exact hrej _ _
  · have hb1 : anyFalsy b = false := by simpa using hb
    cases hinc : includes b.email with
    | none =>
      left
      simp only [postTry, hb1, hinc, Bool.false_eq_true, if_false]
      exact hstage.trans (catchCleanup_only f _ file _)
    | some v =>
      cases v with
      | false =>
        left
        simp only [postTry, hb1, hinc, Bool.false_eq_true, if_false]
        exact hrej _ _
      | true =>
        by_cases hq1 : f.query1 = true
        · left
          simp only [postTry, hb1, hinc, hq1, Bool.false_eq_true, if_false, if_true]
          exact hstage.trans (catchCleanup_only f _ file _)
        · by_cases hdup : (selectByEmail (uploadSingle s file) b.email).length > 0
          · left
            simp only [postTry, hb1, hinc, hq1, hdup, Bool.false_eq_true, if_false, if_true]
            exact hrej _ _
          · by_cases hins : insertThrows f (uploadSingle s file) = true
            · left
              simp only [postTry, hb1, hinc, hq1, hdup, hins, Bool.false_eq_true, if_false,
                if_true]
              exact hstage.trans (catchCleanup_only f _ file _)
            · right
              simp only [postTry, hb1, hinc, hq1, hdup, hins, Bool.false_eq_true, if_false]
              refine ⟨trivial, ?_⟩
              have hne : b.email ≠ JsVal.null := by
                intro hnull
                rw [hnull] at hinc
                simp [includes] at hinc
              rw [selectByEmail_length_pos_iff _ _ hne] at hdup
              unfold EmailTaken at hdup ⊢
              rw [uploadSingle_rows] at hdup
              exact hdup

theorem selectFilePath_uploadSingle (s : Store) (file : Option Upload) (id : Nat) :
    selectFilePath (uploadSingle s file) id = selectFilePath s id := by
  unfold selectFilePath
  rw [uploadSingle_rows]

theorem selectFilePath_some (s : Store) (id : Nat) (p : String)
    (h : selectFilePath s id = some p) : ∃ r ∈ s.rows, r.id = id ∧ r.file_path = some p := by
  cases hrow : rowWithId s id with
  | none =>
    have := selectFilePath_of_absent s id ((rowWithId_eq_none_iff s id).1 hrow)
    rw [this] at h
    exact absurd h (by simp)
  | some old =>
    have hsel := selectFilePath_of_rowWithId s id old hrow
    have hold := rowWithId_some s id old hrow
    exact ⟨old, hold.1, hold.2, by rw [← hsel, h]⟩

/-- What the file replacement step of PUT can do: the new `filePath` is always
`newFilePath`; the store is untouched unless a file is attached, the contact had
an existing file and its deletion went through. -/
theorem replaceFile_cases (f : Faults) (s s1 : Store) (old : Option String)
    (file : Option Upload) (fp : Option String)
    (h : replaceFile f s old file = some (s1, fp)) :
    fp = newFilePath old file ∧
    (s1 = s ∨ ∃ p, old = some p ∧ file ≠ Option.none ∧ f.unlink = false ∧
      existsSync s p = true ∧ unlinkSync false s p = some s1) := by
  cases file with
  | none =>
    simp only [replaceFile, Option.some.injEq, Prod.mk.injEq] at h
    exact ⟨h.2.symm, Or.inl h.1.symm⟩
  | some u =>
    cases old with
    | none =>
      simp only [replaceFile, Option.some.injEq, Prod.mk.injEq] at h
      exact ⟨h.2.symm, Or.inl h.1.symm⟩
    | some p =>
      by_cases hex : existsSync s p = true
      · have hp : p ≠ "" := ((existsSync_iff s p).1 hex).1
        by_cases hun : f.unlink = true
        · simp [replaceFile, truthy, hex, hp, hun, unlinkSync_fails] at h
        · have hun1 : f.unlink = false := by simpa using hun
          have hdel := unlinkSync_eq_some s p hex
          simp only [replaceFile, truthy, hex, hp, hun1, hdel, ne_eq, not_false_eq_true,
            decide_True, Bool.and_self, if_true, Option.some.injEq, Prod.mk.injEq] at h
          refine ⟨h.2.symm, Or.inr ⟨p, rfl, by simp, hun1, hex, ?_⟩⟩
          rw [hdel, h.1]
      · simp only [replaceFile, hex, Bool.and_false, Bool.false_eq_true, if_false,
          Option.some.injEq, Prod.mk.injEq] at h
        exact ⟨h.2.symm, Or.inl h.1.symm⟩

theorem putTry_update (f : Faults) (s s1 : Store) (id : Nat) (b : Fields)
    (file : Option Upload) (fp : Option String)
    (hq1 : f.query1 = false) (hq2 : f.query2 = false)
    (hrep : replaceFile f s (selectFilePath s id) file = some (s1, fp)) :
    (putTry f s id b file).1 = (updateContact s1 id b fp).1 ∧
      ∃ r, (putTry f s id b file).2 = some r := by
  simp only [putTry, hq1, hq2, hrep, Bool.false_eq_true, if_false]
  generalize updateContact s1 id b fp = res
  rcases res with ⟨s2, _ | ⟨c, rest⟩⟩
  · exact ⟨rfl, _, rfl⟩
  · exact ⟨rfl, _, rfl⟩

/-! ## Referential integrity of `file_path` -/

/-- A handler that touches nothing but the fresh upload keeps both invariants. -/
theorem invariants_of_only (file : Option Upload) (s t : Store)
    (h : OnlyUploadTouched file s t) (he : FilePathsExist s) (ho : FilePathsOwned s)
    (hf : FreshUpload s file) : FilePathsExist t ∧ FilePathsOwned t := by
  obtain ⟨hrows, _, hframe⟩ := h
  constructor
  · intro r hr p hp
    rw [hrows] at hr
    rw [hframe p]
    · exact he r hr p hp
    · intro u hu hpu
      exact hf u hu r hr (by rw [hp, hpu])
  · intro r1 hr1 r2 hr2 p hp1 hp2
    rw [hrows] at hr1 hr2
    exact ho r1 hr1 r2 hr2 p hp1 hp2

/-- The UPDATE statement keeps both invariants when the files of the other
contacts are in place, the new path exists and no other contact references it. -/
theorem updateContact_invariants (s s1 : Store) (id : Nat) (b : Fields)
    (fp : Option String) (hrows : s1.rows = s.rows) (ho : FilePathsOwned s)
    (hkeep : ∀ r ∈ s.rows, r.id ≠ id → ∀ p, r.file_path = some p → existsSync s1 p = true)
    (hnew : (∃ r ∈ s.rows, r.id = id) → ∀ p, fp = some p → existsSync s1 p = true)
    (hown : ∀ r ∈ s.rows, r.id ≠ id → ∀ p, fp = some p → r.file_path ≠ some p) :
    FilePathsExist (updateContact s1 id b fp).1 ∧
      FilePathsOwned (updateContact s1 id b fp).1 := by
  have hblobs : ∀ p, existsSync (updateContact s1 id b fp).1 p = existsSync s1 p :=
    fun p => existsSync_congr _ s1 p (updateContact_blobs s1 id b fp).1
  constructor
  · intro r hr p hp
    rw [hblobs]
    rcases (mem_updateContact_rows s1 id b fp r).1 hr with ⟨hmem, hid⟩ | ⟨heq, r0, hr0, hid0⟩
    · rw [hrows] at hmem
      exact hkeep r hmem hid p hp
    · rw [hrows] at hr0
      subst heq
      exact hnew ⟨r0, hr0, hid0⟩ p hp
  · intro r1 hr1 r2 hr2 p hp1 hp2
    rcases (mem_updateContact_rows s1 id b fp r1).1 hr1 with
      ⟨hm1, hid1⟩ | ⟨heq1, _⟩ <;>
    rcases (mem_updateContact_rows s1 id b fp r2).1 hr2 with
      ⟨hm2, hid2⟩ | ⟨heq2, _⟩
    · rw [hrows] at hm1 hm2
      exact ho r1 hm1 r2 hm2 p hp1 hp2
    · rw [hrows] at hm1
      subst heq2
      exact absurd hp1 (hown r1 hm1 hid1 p hp2)
    · rw [hrows] at hm2
      subst heq1
      exact absurd hp2 (hown r2 hm2 hid2 p hp1)
    · subst heq1
      subst heq2
      rfl

theorem postContacts_invariants (f : Faults) (s : Store) (b : Fields) (file : Option Upload)
    (he : FilePathsExist s) (ho : FilePathsOwned s) (hf : FreshUpload s file) :
    FilePathsExist (postContacts f s b file).1 ∧ FilePathsOwned (postContacts f s b file).1 := by
  rcases postContacts_store_cases f s b file with honly | ⟨hins, _⟩
  · exact invariants_of_only file s _ honly he ho hf
  · rw [hins]
    have hrows : (insertContact (uploadSingle s file) b (file.map Upload.path)).1.rows =
        s.rows ++ [{ id := s.nextId, fields := b, file_path := file.map Upload.path }] := by
      simp [insertContact, uploadSingle_rows, uploadSingle_nextId]
    have hblobs : ∀ p, existsSync
        (insertContact (uploadSingle s file) b (file.map Upload.path)).1 p =
          existsSync (uploadSingle s file) p := fun p => existsSync_congr _ _ p rfl
    constructor
    · intro r hr p hp
      rw [hrows, List.mem_append, List.mem_singleton] at hr
      rw [hblobs]
      rcases hr with hr | hr
      · exact existsSync_uploadSingle_of_exists s file p (he r hr p hp)
      · subst hr
        cases file with
        | none => simp at hp
        | some u =>
          simp only [Option.map_some', Option.some.injEq] at hp
          subst hp
          exact existsSync_uploadSingle s u
    · intro r1 hr1 r2 hr2 p hp1 hp2
      rw [hrows, List.mem_append, List.mem_singleton] at hr1 hr2
      have hnot : ∀ r ∈ s.rows, r.file_path = some p → file.map Upload.path ≠ some p := by
        intro r hr hrp hfile
        cases file with
        | none => simp at hfile
        | some u =>
          simp only [Option.map_some', Option.some.injEq] at hfile
          exact hf u rfl r hr (by rw [hrp, hfile])
      rcases hr1 with hr1 | hr1 <;> rcases hr2 with hr2 | hr2
      · exact ho r1 hr1 r2 hr2 p hp1 hp2
      · subst hr2
        exact absurd hp2 (hnot r1 hr1 hp1)
      · subst hr1
        exact absurd hp1 (hnot r2 hr2 hp2)
      · subst hr1
        subst hr2
        rfl

theorem putContact_invariants (f : Faults) (s : Store) (id : Nat) (b : Fields)
    (file : Option Upload) (he : FilePathsExist s) (ho : FilePathsOwned s)
    (hf : FreshUpload s file) (hlost : ¬ OldBlobLost f s (Request.update id b file)) :
    FilePathsExist (putContact f s id b file).1 ∧ FilePathsOwned (putContact f s id b file).1 := by
  have hstage := uploadSingle_only s file
  have honly : ∀ t, OnlyUploadTouched file s t → FilePathsExist t ∧ FilePathsOwned t :=
    fun t ht => invariants_of_only file s t ht he ho hf
  have hsel := selectFilePath_uploadSingle s file id
  unfold putContact
  by_cases hq1 : f.query1 = true
  · have htry : putTry f (uploadSingle s file) id b file = (uploadSingle s file, Option.none) := by
      simp [putTry, hq1]
    rw [putHandler_of_throw f _ _ id b file htry]
    exact honly _ (hstage.trans (catchCleanup_only f _ file _))
  · have hq1f : f.query1 = false := by simpa using hq1
    cases hrep : replaceFile f (uploadSingle s file)
        (selectFilePath (uploadSingle s file) id) file with
    | none =>
      have htry : putTry f (uploadSingle s file) id b file =
          (uploadSingle s file, Option.none) := by
        simp [putTry, hq1f, hrep]
      rw [putHandler_of_throw f _ _ id b file htry]
      exact honly _ (hstage.trans (catchCleanup_only f _ file _))
    | some res =>
      obtain ⟨s1, fp⟩ := res
      obtain ⟨hfp, hs1⟩ := replaceFile_cases f _ s1 _ file fp hrep
      rw [hsel] at hfp hs1
      by_cases hq2 : f.query2 = true
      · have htry : putTry f (uploadSingle s file) id b file = (s1, Option.none) := by
          simp [putTry, hq1f, hrep, hq2]
        rw [putHandler_of_throw f _ _ id b file htry]
        rcases hs1 with hs1 | ⟨p, hold, hfile, hun, _, _⟩
        · subst hs1
          exact honly _ (hstage.trans (catchCleanup_only f _ file _))
        · exfalso
          apply hlost
          cases file with
          | none => exact absurd rfl hfile
          | some u => exact ⟨hq1f, hun, hq2, by rw [hold]; simp⟩
      · have hq2f : f.query2 = false := by simpa using hq2
        obtain ⟨hstore, r, hr⟩ := putTry_update f _ s1 id b file fp hq1f hq2f hrep
        have hres : putHandler f (uploadSingle s file) id b file =
            ((updateContact s1 id b fp).1, r) := by
          apply putHandler_of_reply
          rw [← hstore, ← hr]
        rw [hres]
        have hrows1 : s1.rows = s.rows := by
          rcases hs1 with hs1 | ⟨p, _, _, _, _, hdel⟩
          · rw [hs1]
            exact uploadSingle_rows s file
          · exact (unlinkSync_spec _ _ _ _ hdel).1.trans (uploadSingle_rows s file)
        -- a file that exists before the request and is not the old file of the
        -- contact is still there after the replacement step
        have hother : ∀ q, existsSync s q = true → selectFilePath s id ≠ some q →
            existsSync s1 q = true := by
          intro q hq hne
          have hq1 := existsSync_uploadSingle_of_exists s file q hq
          rcases hs1 with hs1 | ⟨p, hold, _, _, _, hdel⟩
          · rw [hs1]
            exact hq1
          · rw [(unlinkSync_spec _ _ _ _ hdel).2.2.2 q (fun h => hne (by rw [hold, h]))]
            exact hq1
        apply updateContact_invariants s s1 id b fp hrows1 ho
        · intro r0 hr0 hid p hp
          apply hother p (he r0 hr0 p hp)
          intro hselp
          obtain ⟨r1, hr1, hid1, hp1⟩ := selectFilePath_some s id p hselp
          exact hid ((ho r0 hr0 r1 hr1 p hp hp1).trans hid1)
        · rintro ⟨r0, hr0, hid0⟩ p hp
          rw [hfp] at hp
          cases file with
          | none =>
            simp only [newFilePath] at hp
            obtain ⟨r1, hr1, _, hp1⟩ := selectFilePath_some s id p hp
            rcases hs1 with hs1 | ⟨_, _, hfile, _⟩
            · rw [hs1]
              exact he r1 hr1 p hp1
            · exact absurd rfl hfile
          | some u =>
            simp only [newFilePath, Option.some.injEq] at hp
            subst hp
            have hstaged := existsSync_uploadSingle s u
            rcases hs1 with hs1 | ⟨p, hold, _, _, _, hdel⟩
            · rw [hs1]
              exact hstaged
            · rw [(unlinkSync_spec _ _ _ _ hdel).2.2.2 u.path]
              · exact hstaged
              · intro hup
                obtain ⟨r1, hr1, _, hp1⟩ := selectFilePath_some s id p hold
                exact hf u rfl r1 hr1 (by rw [hp1, hup])
        · intro r0 hr0 hid p hp hrp
          rw [hfp] at hp
          cases file with
          | none =>
            simp only [newFilePath] at hp
            obtain ⟨r1, hr1, hid1, hp1⟩ := selectFilePath_some s id p hp
            exact hid ((ho r0 hr0 r1 hr1 p hrp hp1).trans hid1)
          | some u =>
            simp only [newFilePath, Option.some.injEq] at hp
            exact hf u rfl r0 hr0 (by rw [hrp, hp])

theorem removeBlob_frame (f : Faults) (s s1 : Store) (fp : Option String)
    (h : removeBlob f s fp = some s1) :
    s1.rows = s.rows ∧ s1.nextId = s.nextId ∧
      ∀ q, fp ≠ some q → existsSync s1 q = existsSync s q := by
  cases fp with
  | none =>
    simp only [removeBlob, Option.some.injEq] at h
    subst h
    exact ⟨rfl, rfl, fun _ _ => rfl⟩
  | some p =>
    by_cases hc : (truthy (JsVal.str p) && existsSync s p) = true
    · simp only [removeBlob, hc, if_true] at h
      have hspec := unlinkSync_spec _ _ _ _ h
      exact ⟨hspec.1, hspec.2.1, fun q hq => hspec.2.2.2 q (fun hqp => hq (by rw [hqp]))⟩
    · simp only [removeBlob, hc, Bool.false_eq_true, if_false, Option.some.injEq] at h
      subst h
      exact ⟨rfl, rfl, fun _ _ => rfl⟩

/-- The store after Delete: untouched, or without the rows of that id and with
every file other than the contact's own as before. -/
theorem deleteContact_store_cases (f : Faults) (s : Store) (id : Nat) :
    (deleteContact f s id).1 = s ∨
    ((∀ r, r ∈ (deleteContact f s id).1.rows ↔ r ∈ s.rows ∧ r.id ≠ id) ∧
      ∀ q, selectFilePath s id ≠ some q →
        existsSync (deleteContact f s id).1 q = existsSync s q) := by
  unfold deleteContact deleteTry
  by_cases hq1 : f.query1 = true
  · left
    simp [hq1]
  · by_cases hq2 : f.query2 = true
    · left
      simp [hq1, hq2]
    · right
      simp only [hq1, hq2, Bool.false_eq_true, if_false]
      have hmem := mem_deleteRows_rows s id
      have hblobs : ∀ q, existsSync (deleteRows s id).1 q = existsSync s q :=
        fun q => existsSync_congr _ s q rfl
      rcases hdel : deleteRows s id with ⟨s1, _ | ⟨c, rest⟩⟩
      · rw [hdel] at hmem hblobs
        exact ⟨hmem, fun q _ => hblobs q⟩
      · rw [hdel] at hmem hblobs
        simp only
        cases hrm : removeBlob f s1 (selectFilePath s id) with
        | none => exact ⟨hmem, fun q _ => hblobs q⟩
        | some s2 =>
          have hframe := removeBlob_frame f s1 s2 _ hrm
          refine ⟨fun r => ?_, fun q hq => ?_⟩
          · simp only
            rw [hframe.1]
            exact hmem r
          · simp only
            rw [hframe.2.2 q hq]
            exact hblobs q

theorem deleteContact_invariants (f : Faults) (s : Store) (id : Nat)
    (he : FilePathsExist s) (ho : FilePathsOwned s) :
    FilePathsExist (deleteContact f s id).1 ∧ FilePathsOwned (deleteContact f s id).1 := by
  rcases deleteContact_store_cases f s id with hsame | ⟨hmem, hframe⟩
  · rw [hsame]
    exact ⟨he, ho⟩
  · constructor
    · intro r hr p hp
      obtain ⟨hrs, hid⟩ := (hmem r).1 hr
      rw [hframe p]
      · exact he r hrs p hp
      · intro hsel
        obtain ⟨r1, hr1, hid1, hp1⟩ := selectFilePath_some s id p hsel
        exact hid ((ho r hrs r1 hr1 p hp hp1).trans hid1)
    · intro r1 hr1 r2 hr2 p hp1 hp2
      exact ho r1 ((hmem r1).1 hr1).1 r2 ((hmem r2).1 hr2).1 p hp1 hp2

theorem getContacts_store (f : Faults) (s : Store) : (getContacts f s).1 = s := by
  unfold getContacts getTry
  cases f.query1 <;> rfl

/-- C8 (amended). From a state in which every non-null `file_path` names an
existing file and contacts of different ids share no file, a Create, List, Update
or Delete whose upload (if any) carries a name that no row references leads to
such a state again, on success and on every failure path, except for the run
of an Update with a new file in which the old file has been deleted and the
UPDATE statement then throws. -/
theorem handle_preserves_file_paths (f : Faults) (s : Store) (req : Request)
    (he : FilePathsExist s) (ho : FilePathsOwned s) (hf : FreshUpload s req.file)
    (hlost : ¬ OldBlobLost f s req) :
    FilePathsExist (handle f s req).1 ∧ FilePathsOwned (handle f s req).1 := by
  cases req with
  | create b file => exact postContacts_invariants f s b file he ho hf
  | list =>
    simp only [handle]
    rw [getContacts_store]
    exact ⟨he, ho⟩
  | update id b file => exact putContact_invariants f s id b file he ho hf hlost
  | delete id => exact deleteContact_invariants f s id he ho

/-- C8 as stated fails: an Update of contact 1 with a new file, whose UPDATE
statement throws, has already deleted the old file; the row keeps its old
`file_path`, which now names no file. -/
theorem put_store_error_leaves_dangling_file_path :
    FilePathsExist storeA ∧
    (handle secondQueryFails storeA (Request.update 1 bodyA (some uploadB))).2 =
      Reply.json 500 (Body.error "Database error") ∧
    (handle secondQueryFails storeA (Request.update 1 bodyA (some uploadB))).1.rows =
      storeA.rows ∧
    existsSync (handle secondQueryFails storeA (Request.update 1 bodyA (some uploadB))).1
      "uploads/5-a.txt" = false ∧
    ¬ FilePathsExist
      (handle secondQueryFails storeA (Request.update 1 bodyA (some uploadB))).1 := by
  decide

/-- Why the amended C8 asks that contacts share no file: deleting contact 1 of
`storeShared` removes the file that contact 2 still references. -/
theorem delete_shared_file_dangles :
    FilePathsExist storeShared ∧
    ¬ FilePathsExist (handle Faults.none storeShared (Request.delete 1)).1 := by
  decide

/-- Why the amended C8 asks for an upload name that no row references: a rejected
Create whose upload received the name of contact 1's file deletes that file. -/
theorem post_colliding_upload_dangles :
    FilePathsExist storeA ∧
    ¬ FilePathsExist (handle Faults.none storeA
      (Request.create { bodyB with age := JsVal.null } (some uploadA))).1 := by
  decide

theorem handle_preserves_file_paths_witness :
    FilePathsExist storeA ∧ FilePathsOwned storeA ∧ FreshUpload storeA (some uploadB) ∧
    ¬ OldBlobLost secondQueryFails storeA (Request.create bodyB (some uploadB)) ∧
    (handle secondQueryFails storeA (Request.create bodyB (some uploadB))).2 =
      Reply.json 500 (Body.error "Internal server error") ∧
    FilePathsExist (handle secondQueryFails storeA (Request.create bodyB (some uploadB))).1 ∧
    FilePathsOwned (handle secondQueryFails storeA (Request.create bodyB (some uploadB))).1 :=
  have h := handle_preserves_file_paths secondQueryFails storeA
    (Request.create bodyB (some uploadB)) (by decide) (by decide) (by decide) (by decide)
  ⟨by decide, by decide, by decide, by decide, by decide, h.1, h.2⟩

/-! ## Email uniqueness -/

/-- C7: the code breaks the claim. Contacts 1 and 2 have different emails; an
Update of contact 2 carrying the email of contact 1 answers 200 and leaves two
rows with the same email. -/
theorem put_duplicates_email :
    EmailsUnique storeAB ∧
    (handle Faults.none storeAB (Request.update 2 bodyA Option.none)).2 =
      Reply.json 200 (Body.contact "Contact updated successfully."
        { id := 2, fields := bodyA, file_path := Option.none }) ∧
    ¬ EmailsUnique (handle Faults.none storeAB (Request.update 2 bodyA Option.none)).1 := by
  unfold EmailsUnique
  decide

/-- Create never breaks email uniqueness, whatever fails: the sibling path
performs the check that Update lacks. -/
theorem postContacts_emailsUnique (f : Faults) (s : Store) (b : Fields)
    (file : Option Upload) (h : EmailsUnique s) :
    EmailsUnique (postContacts f s b file).1 := by
  unfold EmailsUnique at h ⊢
  rcases postContacts_store_cases f s b file with honly | ⟨hins, hnew⟩
  · rw [honly.1]
    exact h
  · rw [hins]
    simp only [insertContact, uploadSingle_rows]
    rw [List.pairwise_append]
    refine ⟨h, List.pairwise_singleton _ _, ?_⟩
    intro r hr c hc
    rw [List.mem_singleton] at hc
    subst hc
    exact fun heq => hnew ⟨r, hr, heq⟩

/-- Delete never breaks email uniqueness, whatever fails. -/
theorem deleteContact_emailsUnique (f : Faults) (s : Store) (id : Nat)
    (h : EmailsUnique s) : EmailsUnique (deleteContact f s id).1 := by
  unfold EmailsUnique at h ⊢
  have hsub : ((deleteContact f s id).1.rows = s.rows) ∨
      (deleteContact f s id).1.rows = s.rows.filter (fun r => decide (r.id ≠ id)) := by
    unfold deleteContact deleteTry
    by_cases hq1 : f.query1 = true
    · left
      simp [hq1]
    · by_cases hq2 : f.query2 = true
      · left
        simp [hq1, hq2]
      · right
        simp only [hq1, hq2, Bool.false_eq_true, if_false]
        have hrows : (deleteRows s id).1.rows = s.rows.filter (fun r => decide (r.id ≠ id)) :=
          rfl
        rcases hdel : deleteRows s id with ⟨s1, _ | ⟨c, rest⟩⟩
        · rw [hdel] at hrows
          exact hrows
        · rw [hdel] at hrows
          simp only
          cases hrm : removeBlob f s1 (selectFilePath s id) with
          | none => exact hrows
          | some s2 =>
            simp only
            rw [(removeBlob_frame f s1 s2 _ hrm).1]
            exact hrows
  rcases hsub with hsub | hsub
  · rw [hsub]
    exact h
  · rw [hsub]
    exact h.sublist (List.filter_sublist _)

/-! ## The id sequence stays ahead of the table -/

theorem putContact_keys (f : Faults) (s : Store) (id : Nat) (b : Fields)
    (file : Option Upload) :
    (putContact f s id b file).1.nextId = s.nextId ∧
      ∀ r ∈ (putContact f s id b file).1.rows, ∃ r0 ∈ s.rows, r0.id = r.id := by
  have hstage := uploadSingle_only s file
  have honly : ∀ t, OnlyUploadTouched file s t →
      t.nextId = s.nextId ∧ ∀ r ∈ t.rows, ∃ r0 ∈ s.rows, r0.id = r.id := by
    intro t ht
    refine ⟨ht.2.1, fun r hr => ⟨r, ?_, rfl⟩⟩
    rw [← ht.1]
    exact hr
  unfold putContact
  by_cases hq1 : f.query1 = true
  · have htry : putTry f (uploadSingle s file) id b file = (uploadSingle s file, Option.none) := by
      simp [putTry, hq1]
    rw [putHandler_of_throw f _ _ id b file htry]
    exact honly _ (hstage.trans (catchCleanup_only f _ file _))
  · have hq1f : f.query1 = false := by simpa using hq1
    cases hrep : replaceFile f (uploadSingle s file)
        (selectFilePath (uploadSingle s file) id) file with
    | none =>
      have htry : putTry f (uploadSingle s file) id b file =
          (uploadSingle s file, Option.none) := by
        simp [putTry, hq1f, hrep]
      rw [putHandler_of_throw f _ _ id b file htry]
      exact honly _ (hstage.trans (catchCleanup_only f _ file _))
    | some res =>
      obtain ⟨s1, fp⟩ := res
      obtain ⟨_, hs1⟩ := replaceFile_cases f _ s1 _ file fp hrep
      have hkeys1 : s1.rows = s.rows ∧ s1.nextId = s.nextId := by
        rcases hs1 with hs1 | ⟨p, _, _, _, _, hdel⟩
        · rw [hs1]
          exact ⟨uploadSingle_rows s file, uploadSingle_nextId s file⟩
        · have hspec := unlinkSync_spec _ _ _ _ hdel
          exact ⟨hspec.1.trans (uploadSingle_rows s file),
            hspec.2.1.trans (uploadSingle_nextId s file)⟩
      by_cases hq2 : f.query2 = true
      · have htry : putTry f (uploadSingle s file) id b file = (s1, Option.none) := by
          simp [putTry, hq1f, hrep, hq2]
        rw [putHandler_of_throw f _ _ id b file htry]
        have hc := catchCleanup_only f s1 file "Database error"
        refine ⟨hc.2.1.trans hkeys1.2, fun r hr => ⟨r, ?_, rfl⟩⟩
        rw [← hkeys1.1, ← hc.1]
        exact hr
      · have hq2f : f.query2 = false := by simpa using hq2
        obtain ⟨hstore, r, hr⟩ := putTry_update f _ s1 id b file fp hq1f hq2f hrep
        have hres : putHandler f (uploadSingle s file) id b file =
            ((updateContact s1 id b fp).1, r) := by
          apply putHandler_of_reply
          rw [← hstore, ← hr]
        rw [hres]
        refine ⟨(updateContact_blobs s1 id b fp).2.trans hkeys1.2, fun r0 hr0 => ?_⟩
        rcases (mem_updateContact_rows s1 id b fp r0).1 hr0 with ⟨hmem, _⟩ | ⟨heq, r1, hr1, hid1⟩
        · rw [hkeys1.1] at hmem
          exact ⟨r0, hmem, rfl⟩
        · rw [hkeys1.1] at hr1
          exact ⟨r1, hr1, by rw [heq, hid1]⟩

theorem deleteContact_keys (f : Faults) (s : Store) (id : Nat) :
    (deleteContact f s id).1.nextId = s.nextId ∧
      ∀ r ∈ (deleteContact f s id).1.rows, r ∈ s.rows := by
  unfold deleteContact deleteTry
  by_cases hq1 : f.query1 = true
  · simp [hq1]
  · by_cases hq2 : f.query2 = true
    · simp [hq1, hq2]
    · simp only [hq1, hq2, Bool.false_eq_true, if_false]
      have hmem : ∀ r ∈ (deleteRows s id).1.rows, r ∈ s.rows :=
        fun r hr => ((mem_deleteRows_rows s id r).1 hr).1
      have hnext : (deleteRows s id).1.nextId = s.nextId := rfl
      rcases hdel : deleteRows s id with ⟨s1, _ | ⟨c, rest⟩⟩
      · rw [hdel] at hmem hnext
        exact ⟨hnext, hmem⟩
      · rw [hdel] at hmem hnext
        simp only
        cases hrm : removeBlob f s1 (selectFilePath s id) with
        | none => exact ⟨hnext, hmem⟩
        | some s2 =>
          have hframe := removeBlob_frame f s1 s2 _ hrm
          refine ⟨hframe.2.1.trans hnext, fun r hr => hmem r ?_⟩
          simp only at hr
          rw [hframe.1] at hr
          exact hr

/-- The empty service has its id sequence ahead of the table. -/
theorem seqAhead_emptyStore : SeqAhead emptyStore := by
  decide

/-- Every request, in every run, keeps the id sequence ahead of the keys of
the table: from the empty service on, the INSERT never meets a used key. -/
theorem handle_preserves_seqAhead (f : Faults) (s : Store) (req : Request)
    (h : SeqAhead s) : SeqAhead (handle f s req).1 := by
  cases req with
  | create b file =>
    simp only [handle]
    rcases postContacts_store_cases f s b file with honly | ⟨hins, _⟩
    · intro r hr
      rw [honly.1] at hr
      rw [honly.2.1]
      exact h r hr
    · rw [hins]
      intro r hr
      simp only [insertContact, uploadSingle_rows, uploadSingle_nextId, List.mem_append,
        List.mem_singleton] at hr ⊢
      rcases hr with hr | hr
      · have := h r hr
        omega
      · subst hr
        simp
  | list =>
    simp only [handle]
    rw [getContacts_store]
    exact h
  | update id b file =>
    simp only [handle]
    obtain ⟨hnext, hrows⟩ := putContact_keys f s id b file
    intro r hr
    obtain ⟨r0, hr0, hid⟩ := hrows r hr
    rw [hnext, ← hid]
    exact h r0 hr0
  | delete id =>
    simp only [handle]
    obtain ⟨hnext, hrows⟩ := deleteContact_keys f s id
    intro r hr
    rw [hnext]
    exact h r (hrows r hr)

/-! ## Failures and the `catch` blocks -/

theorem reject_reply (f : Faults) (s : Store) (file : Option Upload) (status : Nat)
    (msg : String) (r : Reply) (h : (reject f s file status msg).2 = some r) :
    r = Reply.json status (Body.error msg) := by
  unfold reject at h
  cases hd : discardUpload f s file with
  | none => simp [hd] at h
  | some s1 =>
    simp only [hd, Option.some.injEq] at h
    exact h.symm

theorem postTry_reply (f : Faults) (s : Store) (b : Fields) (file : Option Upload)
    (r : Reply) (h : (postTry f s b file).2 = some r) : r ≠ Reply.unhandled := by
  unfold postTry at h
  by_cases hb : anyFalsy b = true
  · simp only [hb, if_true] at h
    rw [reject_reply _ _ _ _ _ _ h]
    simp
  · have hb1 : anyFalsy b = false := by simpa using hb
    simp only [hb1, Bool.false_eq_true, if_false] at h
    cases hinc : includes b.email with
    | none => simp [hinc] at h
    | some v =>
      cases v with
      | false =>
        simp only [hinc] at h
        rw [reject_reply _ _ _ _ _ _ h]
        simp
      | true =>
        simp only [hinc] at h
        split_ifs at h <;>
          first
          | (rw [reject_reply _ _ _ _ _ _ h]
             simp)
          | (simp only [Option.some.injEq] at h
             rw [← h]
             simp)

theorem putTry_reply (f : Faults) (s : Store) (id : Nat) (b : Fields) (file : Option Upload)
    (r : Reply) (h : (putTry f s id b file).2 = some r) : r ≠ Reply.unhandled := by
  unfold putTry at h
  by_cases hq1 : f.query1 = true
  · simp [hq1] at h
  · simp only [hq1, Bool.false_eq_true, if_false] at h
    cases hrep : replaceFile f s (selectFilePath s id) file with
    | none => simp [hrep] at h
    | some res =>
      obtain ⟨s1, fp⟩ := res
      simp only [hrep] at h
      by_cases hq2 : f.query2 = true
      · simp [hq2] at h
      · simp only [hq2, Bool.false_eq_true, if_false] at h
        revert h
        generalize updateContact s1 id b fp = upd
        rcases upd with ⟨s2, _ | ⟨c, rest⟩⟩
        · intro h
          simp only [Option.some.injEq] at h
          rw [← h]
          simp
        · intro h
          simp only [Option.some.injEq] at h
          rw [← h]
          simp

/-- List and Delete always answer: their `catch` blocks call nothing that throws. -/
theorem get_delete_always_reply (f : Faults) (s : Store) :
    (getContacts f s).2 ≠ Reply.unhandled ∧
      ∀ id, (deleteContact f s id).2 ≠ Reply.unhandled := by
  constructor
  · unfold getContacts getTry
    cases f.query1 <;> simp
  · intro id
    unfold deleteContact deleteTry
    by_cases hq1 : f.query1 = true
    · simp [hq1]
    · by_cases hq2 : f.query2 = true
      · simp [hq1, hq2]
      · simp only [hq1, hq2, Bool.false_eq_true, if_false]
        generalize deleteRows s id = del
        rcases del with ⟨s1, _ | ⟨c, rest⟩⟩
        · simp
        · simp only
          cases removeBlob f s1 (selectFilePath s id) <;> simp

/-- How a handler finishes: with the reply of its `try` block, or, when the
block throws and the deletion in the `catch` block does not, with the 500 of
its `catch` block. -/
theorem handle_of_tryBlock (f : Faults) (s : Store) (req : Request) :
    (∀ r, (tryBlock f s req).2 = some r → (handle f s req).2 = r) ∧
    ((tryBlock f s req).2 = Option.none → f.cleanup = false →
      (handle f s req).2 = Reply.json 500 (Body.error (catchMessage req))) := by
  cases req with
  | create b file =>
    simp only [tryBlock, handle, postContacts, postHandler, catchMessage]
    rcases postTry f (uploadSingle s file) b file with ⟨s1, _ | r0⟩
    · exact ⟨fun r h => absurd h (by simp), fun _ hc => catchCleanup_reply f s1 file _ hc⟩
    · exact ⟨fun r h => by simpa using h, fun h => absurd h (by simp)⟩
  | list =>
    simp only [tryBlock, handle, getContacts, catchMessage]
    rcases getTry f s with ⟨s1, _ | r0⟩
    · exact ⟨fun r h => absurd h (by simp), fun _ _ => rfl⟩
    · exact ⟨fun r h => by simpa using h, fun h => absurd h (by simp)⟩
  | update id b file =>
    simp only [tryBlock, handle, putContact, putHandler, catchMessage]
    rcases putTry f (uploadSingle s file) id b file with ⟨s1, _ | r0⟩
    · exact ⟨fun r h => absurd h (by simp), fun _ hc => catchCleanup_reply f s1 file _ hc⟩
    · exact ⟨fun r h => by simpa using h, fun h => absurd h (by simp)⟩
  | delete id =>
    simp only [tryBlock, handle, deleteContact, catchMessage]
    rcases deleteTry f s id with ⟨s1, _ | r0⟩
    · exact ⟨fun r h => absurd h (by simp), fun _ _ => rfl⟩
    · exact ⟨fun r h => by simpa using h, fun h => absurd h (by simp)⟩

/-- List and Delete answer 500 whenever their `try` block throws, in every run. -/
theorem get_delete_of_throw (f : Faults) (s : Store) :
    ((getTry f s).2 = Option.none →
      (getContacts f s).2 = Reply.json 500 (Body.error "Database error")) ∧
    ∀ id, (deleteTry f s id).2 = Option.none →
      (deleteContact f s id).2 = Reply.json 500 (Body.error "Database error") := by
  constructor
  · intro h
    unfold getContacts
    rcases hg : getTry f s with ⟨s1, _ | r0⟩
    · rfl
    · rw [hg] at h
      exact absurd h (by simp)
  · intro id h
    unfold deleteContact
    rcases hg : deleteTry f s id with ⟨s1, _ | r0⟩
    · rfl
    · rw [hg] at h
      exact absurd h (by simp)

/-- A rejection branch of Create throws when the deletion of the attached file
throws, leaving the staged store as it is. -/
theorem postTry_throws_of_unlink (f : Faults) (s : Store) (b : Fields) (u : Upload)
    (hunlink : f.unlink = true)
    (hrej : SomeFalsy b ∨ EmailLacksAt b ∨ EmailTaken s b.email) :
    postTry f s b (some u) = (s, Option.none) := by
  have hthrow : ∀ status msg, reject f s (some u) status msg = (s, Option.none) := by
    intro status msg
    simp [reject, discardUpload, hunlink, unlinkSync_fails]
  unfold postTry
  by_cases hb : anyFalsy b = true
  · simp only [hb, if_true]
    exact hthrow _ _
  · have hb1 : anyFalsy b = false := by simpa using hb
    have hb2 : ¬ SomeFalsy b := (anyFalsy_eq_false_iff b).1 hb1
    cases hinc : includes b.email with
    | none => simp only [hb1, Bool.false_eq_true, if_false]
    | some v =>
      cases v with
      | false =>
        simp only [hb1, Bool.false_eq_true, if_false]
        exact hthrow _ _
      | true =>
        have htaken : EmailTaken s b.email := by
          rcases hrej with h | h | h
          · exact absurd h hb2
          · rw [includes_of_lacksAt b h] at hinc
            exact absurd hinc (by simp)
          · exact h
        have hne : b.email ≠ JsVal.null := by
          intro hnull
          rw [hnull] at hinc
          simp [includes] at hinc
        have hdup : (selectByEmail s b.email).length > 0 :=
          (selectByEmail_length_pos_iff s b.email hne).2 htaken
        by_cases hq1 : f.query1 = true
        · simp only [hb1, hq1, Bool.false_eq_true, if_false, if_true]
        · simp only [hb1, hq1, hdup, Bool.false_eq_true, if_false, if_true]
          exact hthrow _ _

/-- The `try` block of POST throws when the SELECT throws, and when the INSERT
throws, once validation has passed. -/
theorem postTry_throws_of_query (f : Faults) (s : Store) (b : Fields) (file : Option Upload)
    (hb : ¬ SomeFalsy b) (he : EmailHasAt b)
    (hq : f.query1 = true ∨
      (f.query1 = false ∧ ¬ EmailTaken s b.email ∧ insertThrows f s = true)) :
    postTry f s b file = (s, Option.none) := by
  rw [postTry_valid f s b file hb he]
  rcases hq with hq1 | ⟨hq1, hnew, hins⟩
  · simp only [hq1, if_true]
  · have hnodup : ¬ (selectByEmail s b.email).length > 0 := by
      rw [selectByEmail_length_pos_iff _ _ (email_ne_null_of_hasAt b he)]
      exact hnew
    simp only [hq1, hnodup, hins, Bool.false_eq_true, if_false, if_true]

/-- The `try` block of PUT throws when one of its queries throws. -/
theorem putTry_throws_of_query (f : Faults) (s : Store) (id : Nat) (b : Fields)
    (file : Option Upload) (hq : f.query1 = true ∨ f.query2 = true) :
    (putTry f s id b file).2 = Option.none := by
  unfold putTry
  by_cases hq1 : f.query1 = true
  · simp only [hq1, if_true]
  · have hq2 : f.query2 = true := hq.resolve_left hq1
    simp only [hq1, Bool.false_eq_true, if_false]
    cases hrep : replaceFile f s (selectFilePath s id) file with
    | none => rfl
    | some res =>
      obtain ⟨s1, fp⟩ := res
      simp only [hq2, if_true]

/-- The `try` block of PUT throws when a file is attached and the deletion of
the existing old file throws. -/
theorem putTry_throws_of_unlink (f : Faults) (s : Store) (id : Nat) (b : Fields)
    (u : Upload) (p : String) (hunlink : f.unlink = true)
    (hold : selectFilePath s id = some p) (hex : existsSync s p = true) :
    (putTry f s id b (some u)).2 = Option.none := by
  have hp : p ≠ "" := ((existsSync_iff s p).1 hex).1
  have hrep : replaceFile f s (selectFilePath s id) (some u) = Option.none := by
    simp [replaceFile, hold, truthy, hp, hex, hunlink, unlinkSync_fails]
  unfold putTry
  by_cases hq1 : f.query1 = true
  · simp only [hq1, if_true]
  · simp only [hq1, Bool.false_eq_true, if_false, hrep]

/-- The `try` block of GET throws when its query throws. -/
theorem getTry_throws_of_query (f : Faults) (s : Store) (hq : f.query1 = true) :
    (getTry f s).2 = Option.none := by
  simp [getTry, hq]

/-- The `try` block of DELETE throws when one of its queries throws. -/
theorem deleteTry_throws_of_query (f : Faults) (s : Store) (id : Nat)
    (hq : f.query1 = true ∨ f.query2 = true) : (deleteTry f s id).2 = Option.none := by
  unfold deleteTry
  by_cases hq1 : f.query1 = true
  · simp only [hq1, if_true]
  · have hq2 : f.query2 = true := hq.resolve_left hq1
    simp only [hq1, hq2, Bool.false_eq_true, if_false, if_true]

/-- The `try` block of DELETE throws when the deletion of the contact's
existing file throws. -/
theorem deleteTry_throws_of_unlink (f : Faults) (s : Store) (id : Nat) (p : String)
    (hunlink : f.unlink = true) (hold : selectFilePath s id = some p)
    (hex : existsSync s p = true) : (deleteTry f s id).2 = Option.none := by
  by_cases hq : f.query1 = true ∨ f.query2 = true
  · exact deleteTry_throws_of_query f s id hq
  · have hq1 : f.query1 = false := by
      cases h : f.query1
      · rfl
      · exact absurd (Or.inl h) hq
    have hq2 : f.query2 = false := by
      cases h : f.query2
      · rfl
      · exact absurd (Or.inr h) hq
    have hp : p ≠ "" := ((existsSync_iff s p).1 hex).1
    obtain ⟨r0, hr0, hid0, _⟩ := selectFilePath_some s id p hold
    cases hrow : rowWithId s id with
    | none => exact absurd hid0 ((rowWithId_eq_none_iff s id).1 hrow r0 hr0)
    | some old =>
      obtain ⟨rest, hrest⟩ := deleteRows_returning s id old hrow
      have hpair : deleteRows s id = ((deleteRows s id).1, old :: rest) := by
        rw [← hrest]
      have hex1 : existsSync (deleteRows s id).1 p = true :=
        (existsSync_congr (deleteRows s id).1 s p rfl).trans hex
      have hrm : removeBlob f (deleteRows s id).1 (some p) = Option.none := by
        simp [removeBlob, truthy, hp, hex1, hunlink, unlinkSync_fails]
      simp only [deleteTry, hq1, hq2, Bool.false_eq_true, if_false, hold]
      rw [hpair]
      simp only [hrm]

/-- C9 (amended). When the deletion inside the `catch` block does not throw:
a Create with an attached file that fails field validation, email validation or
the duplicate check, and whose deletion of the attached file throws, answers 500
(not the original 400 or 409); a Create whose SELECT or INSERT throws answers
500; an Update one of whose queries throws, or whose deletion of the old file
throws, answers 500; and every request is answered.  In every run, a List
whose query throws answers 500, a Delete one of whose queries throws or whose
deletion of the contact's file throws answers 500, and both are answered. -/
theorem failures_answer_internal_error (f : Faults) (s : Store) :
    (f.cleanup = false →
      (∀ b u, f.unlink = true → (SomeFalsy b ∨ EmailLacksAt b ∨ EmailTaken s b.email) →
        (handle f s (Request.create b (some u))).2 =
          Reply.json 500 (Body.error "Internal server error")) ∧
      (∀ b file, ¬ SomeFalsy b → EmailHasAt b →
        (f.query1 = true ∨
          (f.query1 = false ∧ ¬ EmailTaken s b.email ∧ insertThrows f s = true)) →
        (handle f s (Request.create b file)).2 =
          Reply.json 500 (Body.error "Internal server error")) ∧
      (∀ id b file, (f.query1 = true ∨ f.query2 = true) →
        (handle f s (Request.update id b file)).2 =
          Reply.json 500 (Body.error "Database error")) ∧
      (∀ id b u p, f.unlink = true → selectFilePath s id = some p → existsSync s p = true →
        (handle f s (Request.update id b (some u))).2 =
          Reply.json 500 (Body.error "Database error")) ∧
      ∀ req, (handle f s req).2 ≠ Reply.unhandled) ∧
    ((f.query1 = true →
        (handle f s Request.list).2 = Reply.json 500 (Body.error "Database error")) ∧
      (∀ id, (f.query1 = true ∨ f.query2 = true) →
        (handle f s (Request.delete id)).2 = Reply.json 500 (Body.error "Database error")) ∧
      (∀ id p, f.unlink = true → selectFilePath s id = some p → existsSync s p = true →
        (handle f s (Request.delete id)).2 = Reply.json 500 (Body.error "Database error")) ∧
      (handle f s Request.list).2 ≠ Reply.unhandled ∧
      ∀ id, (handle f s (Request.delete id)).2 ≠ Reply.unhandled) := by
  refine ⟨fun hcleanup => ⟨?_, ?_, ?_, ?_, ?_⟩, ?_, ?_, ?_, get_delete_always_reply f s⟩
  · intro b u hunlink hrej
    have hrej1 : SomeFalsy b ∨ EmailLacksAt b ∨ EmailTaken (uploadSingle s (some u)) b.email := by
      unfold EmailTaken
      rw [uploadSingle_rows]
      exact hrej
    have htry := postTry_throws_of_unlink f (uploadSingle s (some u)) b u hunlink hrej1
    exact (handle_of_tryBlock f s (Request.create b (some u))).2
      (by simp only [tryBlock, htry]) hcleanup
  · intro b file hb he hq
    have hq1 : f.query1 = true ∨ (f.query1 = false ∧
        ¬ EmailTaken (uploadSingle s file) b.email ∧
        insertThrows f (uploadSingle s file) = true) := by
      unfold EmailTaken
      rw [uploadSingle_rows, insertThrows_uploadSingle]
      exact hq
    have htry := postTry_throws_of_query f (uploadSingle s file) b file hb he hq1
    exact (handle_of_tryBlock f s (Request.create b file)).2
      (by simp only [tryBlock, htry]) hcleanup
  · intro id b file hq
    exact (handle_of_tryBlock f s (Request.update id b file)).2
      (putTry_throws_of_query f _ id b file hq) hcleanup
  · intro id b u p hunlink hold hex
    have hold1 : selectFilePath (uploadSingle s (some u)) id = some p := by
      rw [selectFilePath_uploadSingle]
      exact hold
    have hex1 := existsSync_uploadSingle_of_exists s (some u) p hex
    exact (handle_of_tryBlock f s (Request.update id b (some u))).2
      (putTry_throws_of_unlink f _ id b u p hunlink hold1 hex1) hcleanup
  · intro req
    cases htry : (tryBlock f s req).2 with
    | none =>
      rw [(handle_of_tryBlock f s req).2 htry hcleanup]
      simp
    | some r =>
      rw [(handle_of_tryBlock f s req).1 r htry]
      cases req with
      | create b file => exact postTry_reply f _ b file r htry
      | list =>
        have h1 := (get_delete_always_reply f s).1
        have h2 := (handle_of_tryBlock f s Request.list).1 r htry
        simp only [handle] at h2
        rw [h2] at h1
        exact h1
      | update id b file => exact putTry_reply f _ id b file r htry
      | delete id =>
        have h1 := (get_delete_always_reply f s).2 id
        have h2 := (handle_of_tryBlock f s (Request.delete id)).1 r htry
        simp only [handle] at h2
        rw [h2] at h1
        exact h1
  · intro hq
    exact (get_delete_of_throw f s).1 (getTry_throws_of_query f s hq)
  · intro id hq
    exact (get_delete_of_throw f s).2 id (deleteTry_throws_of_query f s id hq)
  · intro id p hunlink hold hex
    exact (get_delete_of_throw f s).2 id (deleteTry_throws_of_unlink f s id p hunlink hold hex)

/-- C9 as stated fails: a Create with a missing name and an attached file, in
the run where the deletion of that file throws, answers 500 instead of the 400
of field validation; when the deletion in the `catch` block throws too, no
response is sent at all. -/
theorem post_cleanup_failure_masks_validation_error :
    AnyBlank { bodyA with name := JsVal.null } ∧
    (handle unlinkFails emptyStore
        (Request.create { bodyA with name := JsVal.null } (some uploadA))).2 =
      Reply.json 500 (Body.error "Internal server error") ∧
    (handle everyUnlinkFails emptyStore
        (Request.create { bodyA with name := JsVal.null } (some uploadA))).2 =
      Reply.unhandled := by
  decide

theorem failures_answer_internal_error_witness :
    EmailTaken storeA bodyA.email ∧
    (handle unlinkFails storeA (Request.create bodyA (some uploadB))).2 =
      Reply.json 500 (Body.error "Internal server error") ∧
    (handle secondQueryFails storeA (Request.update 1 bodyB Option.none)).2 =
      Reply.json 500 (Body.error "Database error") ∧
    (handle secondQueryFails storeA (Request.delete 1)).2 =
      Reply.json 500 (Body.error "Database error") ∧
    (handle unlinkFails storeA (Request.delete 1)).2 =
      Reply.json 500 (Body.error "Database error") :=
  have htaken : EmailTaken storeA bodyA.email := by decide
  ⟨htaken,
    ((failures_answer_internal_error unlinkFails storeA).1 rfl).1 bodyA uploadB rfl
      (Or.inr (Or.inr htaken)),
    ((failures_answer_internal_error secondQueryFails storeA).1 rfl).2.2.1 1 bodyB
      Option.none (Or.inr rfl),
    (failures_answer_internal_error secondQueryFails storeA).2.2.1 1 (Or.inr rfl),
    (failures_answer_internal_error unlinkFails storeA).2.2.2.1 1 "uploads/5-a.txt" rfl
      (by decide) (by decide)⟩

end ContactService
